import Mathlib

/-!
Verification of the CAS2 particle-simulation engine.

This file is a shallow embedding, over exact rational arithmetic, of
`src/physics_engine.py` (the per-tick physics pipeline of
`simulation_process`) and `src/grid.py` (the spatial partitioning grid).
Floating-point numbers are modelled as `ℚ`; the square root used by
`math.sqrt` and by `Vector2D.magnitude` is passed around explicitly as a
function parameter `sq : ℚ → ℚ`, so every theorem states exactly which
square-root facts it needs, and concrete computations instantiate `sq`
with `ratSqrt`, which agrees with the real square root on perfect squares
of rationals.

`vector.py` is imported by `physics_engine.py` but is not part of the
source tree; the `Vec` operations below are modelled from the spec
(section 4.1: `add, sub, scale(k), div(k), magnitude, normalize`).
-/

/-- Modelled from the spec: `Vector2D` from the missing `vector.py` —
a 2D vector of floats, here exact rationals (spec section 3 and 4.1). -/
structure Vec where
  x : ℚ
  y : ℚ
deriving DecidableEq, Repr

namespace Vec

/-- Modelled from the spec: vector addition. -/
def add (v w : Vec) : Vec := ⟨v.x + w.x, v.y + w.y⟩

/-- Modelled from the spec: vector subtraction. -/
def sub (v w : Vec) : Vec := ⟨v.x - w.x, v.y - w.y⟩

/-- Modelled from the spec: `scale(k)`, multiplication by a scalar. -/
def scale (v : Vec) (k : ℚ) : Vec := ⟨v.x * k, v.y * k⟩

/-- Modelled from the spec: `div(k)`, division by a scalar.  Division by
zero is undefined in the reference behavior (spec section 4.1); this model
adopts Lean's `q / 0 = 0` convention, and every use below is guarded. -/
def divs (v : Vec) (k : ℚ) : Vec := ⟨v.x / k, v.y / k⟩

instance : Add Vec := ⟨add⟩

instance : Sub Vec := ⟨sub⟩

/-- Modelled from the spec: `magnitude` is the Euclidean norm
`sqrt(x² + y²)`; the square-root routine is the explicit parameter `sq`. -/
def mag (sq : ℚ → ℚ) (v : Vec) : ℚ := sq (v.x ^ 2 + v.y ^ 2)

/-- Modelled from the spec: `normalize` divides a vector by its magnitude
(undefined at zero magnitude; callers in the engine guard this). -/
def normalize (sq : ℚ → ℚ) (v : Vec) : Vec := v.divs (mag sq v)

end Vec

/-- Square root on `ℚ` used to instantiate `sq` in concrete computations:
`Nat.sqrt` on numerator and denominator.  For any rational `d ≥ 0` this
computes `sqrt (d^2) = d` exactly, which is all the concrete inputs below
require; it coincides with the real square root on such perfect squares. -/
def ratSqrt (q : ℚ) : ℚ := (Nat.sqrt q.num.toNat : ℚ) / (Nat.sqrt q.den : ℚ)

/-- Excitation state of a particle: `'S0'` (calm) or `'S1'` (excited) in
`physics_engine.py`. -/
inductive SState where
  | S0 : SState
  | S1 : SState
deriving DecidableEq, Repr

open SState

/-! ## Configuration constants of `physics_engine.py` (lines 12-31) -/

def ENV_X : ℚ := 800

def ENV_Y : ℚ := 600

def INITIAL_NUDGE_MAX : ℚ := 5

def MAX_VELOCITY : ℚ := 400

def TIME_STEP : ℚ := 5 / 1000

def VELOCITY_DAMPING : ℚ := 999 / 1000

def MIN_INTERACTION_DISTANCE : ℚ := 1

def CELL_SIZE : ℚ := 60

def S0_MASS : ℚ := 1

def S0_SIGMA : ℚ := 15

def S0_EPSILON : ℚ := 2

def S1_MASS : ℚ := 3 / 2

def S1_SIGMA : ℚ := 20

def S1_EPSILON : ℚ := 5

def ENERGY_THRESHOLD_S1 : ℚ := 150

def INELASTIC_COLLISION_DAMPING : ℚ := 85 / 100

def DRONE_MASS : ℚ := 1

def DRONE_SIGMA : ℚ := 30

def DRONE_EPSILON : ℚ := 50

/-- The tunable parameter dictionary (`tunable_params`, lines 33-39).
The Python dict accepts arbitrary extra keys through
`tunable_params.update(message['params'])`; keys other than the four used
ones (for instance a `drone_mode` entry) are stored but read by no code,
which the optional `drone_mode` field mirrors. -/
structure Params where
  s0_epsilon : ℚ
  s1_epsilon : ℚ
  energy_threshold_s1 : ℚ
  impulse_magnitude : ℚ
  drone_mode : Option String
deriving DecidableEq, Repr

/-- Default values of `tunable_params` at module load. -/
def defaultParams : Params :=
  { s0_epsilon := S0_EPSILON
    s1_epsilon := S1_EPSILON
    energy_threshold_s1 := ENERGY_THRESHOLD_S1
    impulse_magnitude := 5000
    drone_mode := none }

/-- One particle (`class Particle`, lines 41-53). -/
structure Particle where
  id : ℕ
  position : Vec
  velocity : Vec
  acceleration : Vec
  net_force : Vec
  state : SState
  mass : ℚ
  sigma : ℚ
  epsilon : ℚ
  kinetic_energy : ℚ
  potential_energy : ℚ
deriving DecidableEq, Repr

instance : Inhabited Particle :=
  ⟨{ id := 0, position := ⟨0, 0⟩, velocity := ⟨0, 0⟩, acceleration := ⟨0, 0⟩
     net_force := ⟨0, 0⟩, state := S0, mass := S0_MASS, sigma := S0_SIGMA
     epsilon := S0_EPSILON, kinetic_energy := 0, potential_energy := 0 }⟩

/-- `Particle.update_state` (lines 55-66): switching state resets
`mass`/`sigma`/`epsilon` to the target state's profile, epsilon from the
live tunables; a no-op when the state is unchanged. -/
def update_state (pr : Params) (p : Particle) (new_state : SState) : Particle :=
  if p.state = new_state then p
  else match new_state with
    | S1 => { p with state := S1, mass := S1_MASS, sigma := S1_SIGMA,
                     epsilon := pr.s1_epsilon }
    | S0 => { p with state := S0, mass := S0_MASS, sigma := S0_SIGMA,
                     epsilon := pr.s0_epsilon }

/-! ## The spatial grid (`src/grid.py`)

Python's `int(x)` truncates toward zero, which for a rational argument is
`⌊q⌋` when `q ≥ 0` and `⌈q⌉` otherwise. -/

/-- Float-to-int conversion `int(...)` of Python: truncation toward zero. -/
def truncQ (q : ℚ) : ℤ := if 0 ≤ q then ⌊q⌋ else ⌈q⌉

/-- `Grid._get_cell_coords` (grid.py lines 14-18): integer cell key of a
position, `int(position.x / cell_size), int(position.y / cell_size)`. -/
def cellCoords (cell_size : ℚ) (position : Vec) : ℤ × ℤ :=
  (truncQ (position.x / cell_size), truncQ (position.y / cell_size))

/-- The sparse cell dictionary `self.cells`, a mapping from integer cell
coordinates to the sequence of entries inserted there (absent key = empty
list).  The element type is abstract: `grid.py` stores the particle
objects themselves; the engine model below stores their indices in the
engine's particle list, which is how object references are rendered in a
value-based embedding. -/
def Cells (α : Type) := ℤ × ℤ → List α

/-- `Grid.clear` / a fresh grid: every bucket empty. -/
def emptyCells (α : Type) : Cells α := fun _ => []

/-- `Grid.insert` (grid.py lines 24-29): append the entry to the bucket of
the cell containing `position` (the entry's current position). -/
def gridInsert {α : Type} (cell_size : ℚ) (cells : Cells α)
    (position : Vec) (a : α) : Cells α :=
  fun c => if c = cellCoords cell_size position then cells c ++ [a] else cells c

/-- `Grid.get_neighbors` (grid.py lines 31-43): all entries in the 3×3
block of cells around the cell of `position`, concatenated in the loop
order `for dy in range(-1, 2): for dx in range(-1, 2)`. -/
def gridNeighbors {α : Type} (cell_size : ℚ) (cells : Cells α)
    (position : Vec) : List α :=
  let c := cellCoords cell_size position
  cells (c.1 - 1, c.2 - 1) ++ cells (c.1, c.2 - 1) ++ cells (c.1 + 1, c.2 - 1) ++
  cells (c.1 - 1, c.2)     ++ cells (c.1, c.2)     ++ cells (c.1 + 1, c.2)     ++
  cells (c.1 - 1, c.2 + 1) ++ cells (c.1, c.2 + 1) ++ cells (c.1 + 1, c.2 + 1)

/-! ## The per-tick physics pipeline (`simulation_process`, lines 206-389)

The engine owns a Python list of particle objects and mutates them in
place; the grid stores references into that list.  The embedding renders
the list as `List Particle`, object references as indices into it, and
in-place field mutation as `modAt`. -/

/-- Read the particle at index `i` (a dereference of a stored object). -/
def getP (ps : List Particle) (i : ℕ) : Particle := ps.getD i default

/-- Mutate the particle object at index `i` in place. -/
def modAt (ps : List Particle) (i : ℕ) (f : Particle → Particle) : List Particle :=
  ps.set i (f (getP ps i))

/-- Total kinetic energy `sum(0.5 * p.mass * p.velocity.magnitude()**2)`
(lines 209 and 317). -/
def totalKE (sq : ℚ → ℚ) (ps : List Particle) : ℚ :=
  (ps.map (fun p => 1/2 * p.mass * (Vec.mag sq p.velocity) ^ 2)).sum

/-- Position update (lines 212-217): every `'S0'` particle first has its
`epsilon` refreshed from the live tunables, then
`position += velocity·dt + acceleration·(0.5·dt²)` and
`velocity += acceleration·(0.5·dt)`.  There is no special case for the
drone: it is integrated like every other particle. -/
def posStepP (pr : Params) (p : Particle) : Particle :=
  let p := if p.state = S0 then { p with epsilon := pr.s0_epsilon } else p
  { p with
    position := p.position + p.velocity.scale TIME_STEP +
                p.acceleration.scale (1/2 * TIME_STEP ^ 2)
    velocity := p.velocity + p.acceleration.scale (1/2 * TIME_STEP) }

/-- Per-particle reset in the grid-rebuild loop (lines 223-224):
`net_force = 0`, `potential_energy = 0`. -/
def resetFP (p : Particle) : Particle :=
  { p with net_force := ⟨0, 0⟩, potential_energy := 0 }

/-- Grid rebuild (lines 220-222): clear, then insert every particle at its
current position, in list order. -/
def buildGrid (cell_size : ℚ) (ps : List Particle) : Cells ℕ :=
  (List.range ps.length).foldl
    (fun cells i => gridInsert cell_size cells (getP ps i).position i)
    (emptyCells ℕ)

/-- In-place `p.net_force += w; p.potential_energy += pot` as one update. -/
def addFP (w : Vec) (pot : ℚ) (p : Particle) : Particle :=
  { p with net_force := p.net_force + w, potential_energy := p.potential_energy + pot }

/-- In-place `p.net_force -= w; p.potential_energy += pot` as one update. -/
def subFP (w : Vec) (pot : ℚ) (p : Particle) : Particle :=
  { p with net_force := p.net_force - w, potential_energy := p.potential_energy + pot }

/-- In-place `p.net_force -= w`. -/
def subNF (w : Vec) (p : Particle) : Particle :=
  { p with net_force := p.net_force - w }

/-- One iteration of the drone-particle force loop (lines 229-252):
Lennard-Jones force between particle `i` and the drone (`particles[0]`),
applied equal-and-opposite; potential accumulated into the non-drone
particle only.  Skipped when the particle is the drone itself. -/
def dpBody (sq : ℚ → ℚ) (ps : List Particle) (i : ℕ) : List Particle :=
  let p1 := getP ps i
  if p1.id = 0 then ps else
    let drone := getP ps 0
    let dist_vec := p1.position - drone.position
    let r := Vec.mag sq dist_vec
    let r_clamped := max r MIN_INTERACTION_DISTANCE
    let sigma_avg := (p1.sigma + drone.sigma) / 2
    let epsilon_avg := sq (p1.epsilon * drone.epsilon)
    let sr6 := (sigma_avg / r_clamped) ^ 6
    let sr12 := sr6 * sr6
    let potential := 4 * epsilon_avg * (sr12 - sr6)
    let force_mag := 24 * epsilon_avg * (2 * sr12 - sr6) / r_clamped
    let force_vec := (Vec.normalize sq dist_vec).scale force_mag
    let ps1 := modAt ps i (addFP force_vec potential)
    modAt ps1 0 (subNF force_vec)

/-- The full drone-particle force pass. -/
def dpPass (sq : ℚ → ℚ) (ps : List Particle) : List Particle :=
  (List.range ps.length).foldl (dpBody sq) ps

/-- One iteration of the inner particle-particle loop (lines 262-286) for
outer particle `i` and candidate neighbor `j`: skip unless
`p1.id < p2.id` and `p2` is not the drone; otherwise apply the
Lennard-Jones force equal-and-opposite, split the potential equally, and
track the smallest squared pair distance seen for `i` (`none` plays the
role of `float('inf')`). -/
def ppBody (sq : ℚ → ℚ) (i : ℕ) (acc : List Particle × Option ℚ) (j : ℕ) :
    List Particle × Option ℚ :=
  let p1 := getP acc.1 i
  let p2 := getP acc.1 j
  if p1.id ≥ p2.id ∨ p2.id = 0 then acc else
    let dist_vec := p2.position - p1.position
    let r := Vec.mag sq dist_vec
    let r_clamped := max r MIN_INTERACTION_DISTANCE
    let sigma_avg := (p1.sigma + p2.sigma) / 2
    let epsilon_avg := sq (p1.epsilon * p2.epsilon)
    let sr6 := (sigma_avg / r_clamped) ^ 6
    let sr12 := sr6 * sr6
    let force_mag := 24 * epsilon_avg * (2 * sr12 - sr6) / r_clamped
    let force_vec := (Vec.normalize sq dist_vec).scale force_mag
    let potential := 4 * epsilon_avg * (sr12 - sr6)
    let ps1 := modAt acc.1 i (subFP force_vec (potential / 2))
    let ps2 := modAt ps1 j (addFP force_vec (potential / 2))
    let min_dist_sq :=
      match acc.2 with
      | none => some (r * r)
      | some m => if r * r < m then some (r * r) else some m
    (ps2, min_dist_sq)

/-- One iteration of the outer particle-particle loop (lines 255-289):
for non-drone particle `i`, fold the inner loop over the grid's 3×3
neighbor query, then, if any pair was evaluated, add
`sqrt(min_dist_sq)` to the running `total_nn_dist`. -/
def ppOuter (cell_size : ℚ) (sq : ℚ → ℚ) (grid : Cells ℕ)
    (acc : List Particle × ℚ) (i : ℕ) : List Particle × ℚ :=
  let p1 := getP acc.1 i
  if p1.id = 0 then acc else
    let potential_neighbors := gridNeighbors cell_size grid p1.position
    let inner := potential_neighbors.foldl (ppBody sq i) (acc.1, none)
    match inner.2 with
    | none => (inner.1, acc.2)
    | some min_dist_sq => (inner.1, acc.2 + sq min_dist_sq)

/-- The full particle-particle force pass, returning the updated particles
and the accumulated `total_nn_dist`. -/
def ppPass (cell_size : ℚ) (sq : ℚ → ℚ) (grid : Cells ℕ)
    (ps : List Particle) : List Particle × ℚ :=
  (List.range ps.length).foldl (ppOuter cell_size sq grid) (ps, 0)

/-- Velocity update of one particle without the state transition
(lines 292-305): `acceleration = net_force / mass`,
`velocity += acceleration·(0.5·dt)`, multiplicative damping, speed limit,
then `kinetic_energy = 0.5·mass·speed²` — note `speed` is measured before
the clamp, exactly as in the code. -/
def velBase (sq : ℚ → ℚ) (p : Particle) : Particle :=
  let acceleration := p.net_force.divs p.mass
  let v1 := p.velocity + acceleration.scale (1/2 * TIME_STEP)
  let v2 := v1.scale VELOCITY_DAMPING
  let speed := Vec.mag sq v2
  let v3 := if speed > MAX_VELOCITY then (Vec.normalize sq v2).scale MAX_VELOCITY
            else v2
  { p with acceleration := acceleration, velocity := v3,
           kinetic_energy := 1/2 * p.mass * speed ^ 2 }

/-- Velocity update plus the excitation state machine (lines 292-314):
after `velBase`, a non-drone particle with total mechanical energy above
the threshold goes `'S0' → 'S1'`; one with total energy below the
threshold goes `'S1' → 'S0'` after its velocity is scaled by the inelastic
collision damping factor.  The drone (`id == 0`) is exempt. -/
def velStep (pr : Params) (sq : ℚ → ℚ) (p : Particle) : Particle :=
  let q := velBase sq p
  if q.id ≠ 0 then
    let total_energy := q.kinetic_energy + q.potential_energy
    if q.state = S0 ∧ total_energy > pr.energy_threshold_s1 then
      update_state pr q S1
    else if q.state = S1 ∧ total_energy < pr.energy_threshold_s1 then
      update_state pr { q with velocity := q.velocity.scale INELASTIC_COLLISION_DAMPING } S0
    else q
  else q

/-- Boundary conditions for one particle (lines 321-339): independent
per-axis elastic reflection at the walls, offset by the effective radius
`sigma / 2`. -/
def boundStep (p : Particle) : Particle :=
  let radius := p.sigma / 2
  let px := if p.position.x - radius < 0 then radius
            else if p.position.x + radius > ENV_X then ENV_X - radius
            else p.position.x
  let vx := if p.position.x - radius < 0 then -p.velocity.x
            else if p.position.x + radius > ENV_X then -p.velocity.x
            else p.velocity.x
  let py := if p.position.y - radius < 0 then radius
            else if p.position.y + radius > ENV_Y then ENV_Y - radius
            else p.position.y
  let vy := if p.position.y - radius < 0 then -p.velocity.y
            else if p.position.y + radius > ENV_Y then -p.velocity.y
            else p.velocity.y
  { p with position := ⟨px, py⟩, velocity := ⟨vx, vy⟩ }

/-- All intermediate states of one running tick, named after the point in
`simulation_process` where each is reached. -/
structure TickStages where
  ke_before : ℚ
  psPos : List Particle
  psReset : List Particle
  grid : Cells ℕ
  psDrone : List Particle
  psPair : List Particle
  total_nn_dist : ℚ
  psVel : List Particle
  ke_after : ℚ
  heat_this_step : ℚ
  psBound : List Particle

/-- One running tick of the physics pipeline (lines 206-339), staged:
kinetic energy measured at the top of the tick (line 209), position
update, grid rebuild with force/potential reset, drone-particle forces,
particle-particle forces, velocity update and state transitions, the heat
measurement (lines 316-318), then boundary handling. -/
def tickStages (pr : Params) (sq : ℚ → ℚ) (ps : List Particle) : TickStages :=
  let ke_before := totalKE sq ps
  let psPos := ps.map (posStepP pr)
  let psReset := psPos.map resetFP
  let grid := buildGrid CELL_SIZE psReset
  let psDrone := dpPass sq psReset
  let pair := ppPass CELL_SIZE sq grid psDrone
  let psVel := pair.1.map (velStep pr sq)
  let ke_after := totalKE sq psVel
  { ke_before := ke_before, psPos := psPos, psReset := psReset, grid := grid
    psDrone := psDrone, psPair := pair.1, total_nn_dist := pair.2
    psVel := psVel, ke_after := ke_after
    heat_this_step := ke_before - ke_after
    psBound := psVel.map boundStep }

/-- Cumulative engine accounting across ticks: the particle list plus
`total_energy_input` and `total_heat_dissipated` (lines 97-99). -/
structure EngState where
  particles : List Particle
  total_energy_input : ℚ
  total_heat_dissipated : ℚ

/-- The metrics packet emitted at the end of a tick (lines 341-381). -/
structure Metrics where
  total_ke : ℚ
  total_pe : ℚ
  total_energy : ℚ
  s1_count : ℕ
  temperature : ℚ
  order : ℚ
  drone_speed : ℚ
  drone_ke : ℚ
  heat_dissipated : ℚ
  energy_input : ℚ
  energy_balance : ℚ
  momentum_x : ℚ
  momentum_y : ℚ

/-- One full running tick with no pending control messages: the physics
pipeline followed by heat accumulation (line 319) and the metrics packet.
`PARTICLE_COUNT` of the code equals the (never resized) particle-list
length. -/
def runTick (pr : Params) (sq : ℚ → ℚ) (s : EngState) : EngState × Metrics :=
  let st := tickStages pr sq s.particles
  let ps := st.psBound
  let drone := getP ps 0
  let heat := s.total_heat_dissipated + st.heat_this_step
  let total_momentum_x := (ps.map (fun p => p.mass * p.velocity.x)).sum
  let total_momentum_y := (ps.map (fun p => p.mass * p.velocity.y)).sum
  let agents := ps.filter (fun p => p.id != 0)
  let total_ke := (agents.map (fun p => p.kinetic_energy)).sum + drone.kinetic_energy
  let total_pe := (ps.map (fun p => p.potential_energy)).sum
  let total_system_energy := total_ke + total_pe
  let num_reg : ℕ := ps.length - 1
  ({ particles := ps, total_energy_input := s.total_energy_input
     total_heat_dissipated := heat },
   { total_ke := total_ke, total_pe := total_pe
     total_energy := total_system_energy
     s1_count := (agents.filter (fun p => p.state == S1)).length
     temperature := if 0 < ps.length then total_ke / (ps.length : ℚ) else 0
     order := if 0 < num_reg then st.total_nn_dist / (num_reg : ℚ) else 0
     drone_speed := Vec.mag sq drone.velocity
     drone_ke := drone.kinetic_energy
     heat_dissipated := heat
     energy_input := s.total_energy_input
     energy_balance := s.total_energy_input - (total_system_energy + heat)
     momentum_x := total_momentum_x, momentum_y := total_momentum_y })

/-- The `APPLY_IMPULSE` message handler (lines 164-191), acting on the
drone object (`particles[0]`) and the cumulative `total_energy_input`: if
the given direction vector has positive computed magnitude, normalize it,
scale to `impulse_magnitude`, add `Δv = impulse / mass` to the drone's
velocity, and add `new_ke - old_ke` to the energy input; otherwise do
nothing. -/
def applyImpulse (pr : Params) (sq : ℚ → ℚ) (force_x force_y : ℚ)
    (drone : Particle) (total_energy_input : ℚ) : Particle × ℚ :=
  let force_vec : Vec := ⟨force_x, force_y⟩
  let force_magnitude := Vec.mag sq force_vec
  if force_magnitude > 0 then
    let impulse := (Vec.normalize sq force_vec).scale pr.impulse_magnitude
    let delta_v := impulse.divs drone.mass
    let vel := drone.velocity + delta_v
    let old_ke := 1/2 * drone.mass * (Vec.mag sq (vel - delta_v)) ^ 2
    let new_ke := 1/2 * drone.mass * (Vec.mag sq vel) ^ 2
    ({ drone with velocity := vel }, total_energy_input + (new_ke - old_ke))
  else
    (drone, total_energy_input)

/-! ## Generic helper lemmas about the embedding's list and vector operations -/

/-- Sum of a projection over the particle list. -/
def sumF (F : Particle → ℚ) (ps : List Particle) : ℚ := (ps.map F).sum

/-- `x`-component of the accumulated net force. -/
def nfx (p : Particle) : ℚ := p.net_force.x

/-- `y`-component of the accumulated net force. -/
def nfy (p : Particle) : ℚ := p.net_force.y

/-- A particle-updating function that can change only the `net_force` and
`potential_energy` fields. -/
def FPOnly (f : Particle → Particle) : Prop := ∀ p, resetFP (f p) = resetFP p

/-- Two particle lists that agree everywhere except possibly in
`net_force`/`potential_energy`. -/
def EqCore (a b : List Particle) : Prop :=
  a.length = b.length ∧ ∀ j, resetFP (getP a j) = resetFP (getP b j)

/-- Concrete particle used to witness the boundary theorem: out of bounds
on both axes before the boundary step. -/
def pW8 : Particle :=
  { id := 1, position := ⟨-5, 700⟩, velocity := ⟨2, 3⟩, acceleration := ⟨0, 0⟩
    net_force := ⟨0, 0⟩, state := S0, mass := 1, sigma := 15, epsilon := 2
    kinetic_energy := 0, potential_energy := 0 }

/-- Concrete particle used to witness the state machine: calm, fast enough
that its post-integration energy exceeds the default threshold. -/
def pW3 : Particle :=
  { id := 1, position := ⟨100, 100⟩, velocity := ⟨30, 40⟩, acceleration := ⟨0, 0⟩
    net_force := ⟨0, 0⟩, state := S0, mass := 1, sigma := 15, epsilon := 2
    kinetic_energy := 0, potential_energy := 0 }

/-- Concrete drone used to witness the impulse handler: at rest at the
environment center with the drone profile. -/
def droneW4 : Particle :=
  { id := 0, position := ⟨400, 300⟩, velocity := ⟨0, 0⟩, acceleration := ⟨0, 0⟩
    net_force := ⟨0, 0⟩, state := S0, mass := DRONE_MASS, sigma := DRONE_SIGMA
    epsilon := DRONE_EPSILON, kinetic_energy := 0, potential_energy := 0 }

/-- Engine state used to witness the epsilon-overwrite theorem: only the
freshly configured drone. -/
def engW10 : EngState := { particles := [droneW4], total_energy_input := 0
                           total_heat_dissipated := 0 }

/-- Grid build of `grid.py` as used on a particle list: clear, then insert
every particle at its current position, in list order (the same loop as
`simulation_process` lines 220-222, holding the particle objects
themselves as `grid.py` does). -/
def insertAllP (cell_size : ℚ) (ps : List Particle) : Cells Particle :=
  ps.foldl (fun cells p => gridInsert cell_size cells p.position p)
    (emptyCells Particle)

/-- Concrete particles used to witness the neighbor-superset property:
distance 50 ≤ cell_size 60. -/
def pW6a : Particle :=
  { id := 1, position := ⟨10, 10⟩, velocity := ⟨0, 0⟩, acceleration := ⟨0, 0⟩
    net_force := ⟨0, 0⟩, state := S0, mass := 1, sigma := 15, epsilon := 2
    kinetic_energy := 0, potential_energy := 0 }

def pW6b : Particle :=
  { id := 2, position := ⟨50, 40⟩, velocity := ⟨0, 0⟩, acceleration := ⟨0, 0⟩
    net_force := ⟨0, 0⟩, state := S0, mass := 1, sigma := 15, epsilon := 2
    kinetic_energy := 0, potential_energy := 0 }

/-- Concrete drone for the kinematic-mode counterexample: at the
environment center with nonzero velocity. -/
def droneC5 : Particle :=
  { id := 0, position := ⟨400, 300⟩, velocity := ⟨100, 0⟩, acceleration := ⟨0, 0⟩
    net_force := ⟨0, 0⟩, state := S0, mass := DRONE_MASS, sigma := DRONE_SIGMA
    epsilon := DRONE_EPSILON, kinetic_energy := 0, potential_energy := 0 }

def engC5 : EngState := { particles := [droneC5], total_energy_input := 0
                          total_heat_dissipated := 0 }

/-- Tunable parameters carrying an (ignored) `drone_mode = "idle"` entry. -/
def prIdle : Params := { defaultParams with drone_mode := some "idle" }

/-- Rendering of the claim's "total kinetic energy measured immediately
before the velocity-damping step minus immediately after it (the delta of
the damping step alone)": for each particle, the velocity just before
line 298's damping is `velocity + (net_force/mass)·(dt/2)`, and the
damping multiplies it by `VELOCITY_DAMPING`. -/
def dampDeltaOnly (sq : ℚ → ℚ) (ps : List Particle) : ℚ :=
  (ps.map (fun p =>
    let v1 := p.velocity + (p.net_force.divs p.mass).scale (1/2 * TIME_STEP)
    1/2 * p.mass * (Vec.mag sq v1) ^ 2 -
      1/2 * p.mass * (Vec.mag sq (v1.scale VELOCITY_DAMPING)) ^ 2)).sum

/-- Concrete particles for the heat counterexample: drone and one particle
at rest 20 units apart (inside the repulsive Lennard-Jones region). -/
def droneC1 : Particle :=
  { id := 0, position := ⟨400, 300⟩, velocity := ⟨0, 0⟩, acceleration := ⟨0, 0⟩
    net_force := ⟨0, 0⟩, state := S0, mass := DRONE_MASS, sigma := DRONE_SIGMA
    epsilon := DRONE_EPSILON, kinetic_energy := 0, potential_energy := 0 }

def pC1 : Particle :=
  { id := 1, position := ⟨420, 300⟩, velocity := ⟨0, 0⟩, acceleration := ⟨0, 0⟩
    net_force := ⟨0, 0⟩, state := S0, mass := 1, sigma := 15, epsilon := 2
    kinetic_energy := 0, potential_energy := 0 }

def engC1 : EngState := { particles := [droneC1, pC1], total_energy_input := 0
                          total_heat_dissipated := 0 }

/-- Concrete particles for the momentum counterexample: drone at rest, one
particle drifting with momentum 1/5, pair separation chosen so no
boundary reflection and no state transition occurs. -/
def droneC2 : Particle :=
  { id := 0, position := ⟨400, 300⟩, velocity := ⟨0, 0⟩, acceleration := ⟨0, 0⟩
    net_force := ⟨0, 0⟩, state := S0, mass := DRONE_MASS, sigma := DRONE_SIGMA
    epsilon := DRONE_EPSILON, kinetic_energy := 0, potential_energy := 0 }

def pC2 : Particle :=
  { id := 1, position := ⟨444999/1000, 300⟩, velocity := ⟨1/5, 0⟩
    acceleration := ⟨0, 0⟩, net_force := ⟨0, 0⟩, state := S0, mass := 1
    sigma := 15, epsilon := 2, kinetic_energy := 0, potential_energy := 0 }

def engC2 : EngState := { particles := [droneC2, pC2], total_energy_input := 0
                          total_heat_dissipated := 0 }

/-- One step of the nearest-evaluated-neighbor tracking of the
particle-particle pass (lines 262-286), read off a fixed particle list:
the pair `(i, j)` is evaluated exactly under the pass's guard, and the
running minimum of squared pair distances is updated. -/
def nnStep (sq : ℚ → ℚ) (ps : List Particle) (i : ℕ) (mds : Option ℚ)
    (j : ℕ) : Option ℚ :=
  if (getP ps i).id ≥ (getP ps j).id ∨ (getP ps j).id = 0 then mds
  else
    let r := Vec.mag sq ((getP ps j).position - (getP ps i).position)
    match mds with
    | none => some (r * r)
    | some m => if r * r < m then some (r * r) else some m

/-- Squared distance to the nearest evaluated neighbor of particle `i`
(`none` when no pair for `i` is evaluated), over the grid's 3×3 query. -/
def nnMinSq (cs : ℚ) (sq : ℚ → ℚ) (g : Cells ℕ) (ps : List Particle)
    (i : ℕ) : Option ℚ :=
  (gridNeighbors cs g (getP ps i).position).foldl (nnStep sq ps i) none

/-- Per-particle contribution to `total_nn_dist`: the (unsquared, via
`sqrt`) nearest evaluated neighbor distance; drones and particles with no
evaluated pair contribute nothing. -/
def nnContrib (cs : ℚ) (sq : ℚ → ℚ) (g : Cells ℕ) (ps : List Particle)
    (i : ℕ) : ℚ :=
  if (getP ps i).id = 0 then 0
  else
    match nnMinSq cs sq g ps i with
    | none => 0
    | some d => sq d

/-- Declarative order metric: the average over non-drone particles of the
distance (not squared) to the nearest evaluated neighbor. -/
def orderDecl (cs : ℚ) (sq : ℚ → ℚ) (g : Cells ℕ) (ps : List Particle) : ℚ :=
  if 0 < ps.length - 1 then
    ((List.range ps.length).map (nnContrib cs sq g ps)).sum /
      ((ps.length - 1 : ℕ) : ℚ)
  else 0

/-- Rendering of claim C9's words: the average over non-drone particles of
the squared distance to the nearest evaluated neighbor. -/
def orderSpecSquared (cs : ℚ) (sq : ℚ → ℚ) (g : Cells ℕ)
    (ps : List Particle) : ℚ :=
  if 0 < ps.length - 1 then
    ((List.range ps.length).map (fun i =>
      if (getP ps i).id = 0 then 0
      else
        match nnMinSq cs sq g ps i with
        | none => 0
        | some d => d)).sum / ((ps.length - 1 : ℕ) : ℚ)
  else 0

/-- Concrete particles for the order-metric counterexample: drone above,
two particles 30 apart vertically, all at rest. -/
def droneC9 : Particle :=
  { id := 0, position := ⟨100, 280⟩, velocity := ⟨0, 0⟩, acceleration := ⟨0, 0⟩
    net_force := ⟨0, 0⟩, state := S0, mass := DRONE_MASS, sigma := DRONE_SIGMA
    epsilon := DRONE_EPSILON, kinetic_energy := 0, potential_energy := 0 }

def pC9a : Particle :=
  { id := 1, position := ⟨100, 100⟩, velocity := ⟨0, 0⟩, acceleration := ⟨0, 0⟩
    net_force := ⟨0, 0⟩, state := S0, mass := 1, sigma := 15, epsilon := 2
    kinetic_energy := 0, potential_energy := 0 }

def pC9b : Particle :=
  { id := 2, position := ⟨100, 130⟩, velocity := ⟨0, 0⟩, acceleration := ⟨0, 0⟩
    net_force := ⟨0, 0⟩, state := S0, mass := 1, sigma := 15, epsilon := 2
    kinetic_energy := 0, potential_energy := 0 }

def engC9 : EngState := { particles := [droneC9, pC9a, pC9b]
                          total_energy_input := 0, total_heat_dissipated := 0 }

theorem Vec.add_def (v w : Vec) : v + w = ⟨v.x + w.x, v.y + w.y⟩ := rfl

theorem Vec.sub_def (v w : Vec) : v - w = ⟨v.x - w.x, v.y - w.y⟩ := rfl

/-- `ratSqrt` is exact on squares of nonnegative rationals: this is the
interface through which every concrete computation evaluates a square
root, and it agrees with the real square root at all such points. -/
theorem ratSqrt_sq (a : ℚ) (ha : 0 ≤ a) : ratSqrt (a ^ 2) = a := by
  have hnum : (a ^ 2).num = a.num * a.num := by rw [sq]; exact Rat.mul_self_num a
  have hden : (a ^ 2).den = a.den * a.den := by rw [sq]; exact Rat.mul_self_den a
  have hnn : 0 ≤ a.num := Rat.num_nonneg.mpr ha
  unfold ratSqrt
  rw [hnum, hden]
  have h1 : (a.num * a.num).toNat = a.num.toNat * a.num.toNat := by
    rcases Int.eq_ofNat_of_zero_le hnn with ⟨n, hn⟩
    rw [hn, ← Nat.cast_mul, Int.toNat_natCast, Int.toNat_natCast]
  rw [h1, Nat.sqrt_eq, Nat.sqrt_eq]
  have h2 : ((a.num.toNat : ℕ) : ℚ) = (a.num : ℚ) := by
    rw [← Int.cast_natCast, Int.toNat_of_nonneg hnn]
  rw [h2, Rat.num_div_den]

/-- Pointwise evaluation form of `ratSqrt_sq`. -/
theorem ratSqrt_eval (x r : ℚ) (hx : x = r ^ 2) (hr : 0 ≤ r) : ratSqrt x = r := by
  rw [hx, ratSqrt_sq r hr]

theorem getP_set_eq (ps : List Particle) (i : ℕ) (q : Particle)
    (h : i < ps.length) : getP (ps.set i q) i = q := by
  induction ps generalizing i with
  | nil => simp at h
  | cons a t ih =>
    cases i with
    | zero => simp [getP]
    | succ n => simpa [getP] using ih n (by simpa using h)

theorem getP_set_ne (ps : List Particle) (i j : ℕ) (q : Particle)
    (h : j ≠ i) : getP (ps.set i q) j = getP ps j := by
  induction ps generalizing i j with
  | nil => simp [getP]
  | cons a t ih =>
    cases i with
    | zero =>
      cases j with
      | zero => exact absurd rfl h
      | succ m => simp [getP]
    | succ n =>
      cases j with
      | zero => simp [getP]
      | succ m => simpa [getP] using ih n m (fun hc => h (by simp [hc]))

theorem length_modAt (ps : List Particle) (i : ℕ) (f : Particle → Particle) :
    (modAt ps i f).length = ps.length := by
  simp [modAt]

theorem getP_modAt_eq (ps : List Particle) (i : ℕ) (f : Particle → Particle)
    (h : i < ps.length) : getP (modAt ps i f) i = f (getP ps i) :=
  getP_set_eq ps i _ h

theorem getP_modAt_ne (ps : List Particle) (i j : ℕ) (f : Particle → Particle)
    (h : j ≠ i) : getP (modAt ps i f) j = getP ps j :=
  getP_set_ne ps i j _ h

theorem modAt_of_length_le (ps : List Particle) (i : ℕ) (f : Particle → Particle)
    (h : ps.length ≤ i) : modAt ps i f = ps :=
  List.set_eq_of_length_le h

theorem getP_map (f : Particle → Particle) (ps : List Particle) (j : ℕ)
    (h : j < ps.length) : getP (ps.map f) j = f (getP ps j) := by
  induction ps generalizing j with
  | nil => simp at h
  | cons a t ih =>
    cases j with
    | zero => simp [getP]
    | succ n => simpa [getP] using ih n (by simpa using h)

theorem foldl_preserve_mem {α β : Type} (f : β → α → β) (P : β → Prop)
    (l : List α) (step : ∀ b a, a ∈ l → P b → P (f b a)) (b : β) (hb : P b) :
    P (l.foldl f b) := by
  induction l generalizing b with
  | nil => exact hb
  | cons a t ih =>
    exact ih (fun b' a' ha' hb' => step b' a' (List.mem_cons_of_mem a ha') hb')
      (f b a) (step b a (List.mem_cons_self a t) hb)

theorem sumF_set (F : Particle → ℚ) (ps : List Particle) (i : ℕ) (q : Particle)
    (h : i < ps.length) :
    sumF F (ps.set i q) = sumF F ps - F (getP ps i) + F q := by
  induction ps generalizing i with
  | nil => simp at h
  | cons a t ih =>
    cases i with
    | zero => simp [sumF, getP]; ring
    | succ n =>
      have := ih n (by simpa using h)
      simp only [sumF, getP] at this ⊢
      simp only [List.set, List.map_cons, List.sum_cons, List.getD_cons_succ, this]
      ring

theorem sumF_modAt (F : Particle → ℚ) (ps : List Particle) (i : ℕ)
    (f : Particle → Particle) (h : i < ps.length) :
    sumF F (modAt ps i f) = sumF F ps - F (getP ps i) + F (f (getP ps i)) :=
  sumF_set F ps i _ h

/-! ## Preservation properties of the force passes -/

theorem EqCore.refl (a : List Particle) : EqCore a a := ⟨rfl, fun _ => rfl⟩

theorem EqCore.trans {a b c : List Particle} (h1 : EqCore a b) (h2 : EqCore b c) :
    EqCore a c :=
  ⟨h1.1.trans h2.1, fun j => (h1.2 j).trans (h2.2 j)⟩

theorem EqCore_modAt (ps : List Particle) (i : ℕ) (f : Particle → Particle)
    (hf : FPOnly f) : EqCore (modAt ps i f) ps := by
  refine ⟨length_modAt ps i f, fun j => ?_⟩
  by_cases hi : i < ps.length
  · by_cases hji : j = i
    · subst hji
      rw [getP_modAt_eq ps j f hi, hf]
    · rw [getP_modAt_ne ps i j f hji]
  · rw [modAt_of_length_le ps i f (le_of_not_lt hi)]

theorem EqCore_modAt_modAt (ps : List Particle) (i j : ℕ)
    (f g : Particle → Particle) (hf : FPOnly f) (hg : FPOnly g) :
    EqCore (modAt (modAt ps i f) j g) ps :=
  (EqCore_modAt _ j g hg).trans (EqCore_modAt ps i f hf)

/-- Fields other than `net_force`/`potential_energy` coincide between
`EqCore`-related lists; stated via the `resetFP` projections used below. -/
theorem EqCore.fields {a b : List Particle} (h : EqCore a b) (j : ℕ) :
    (getP a j).id = (getP b j).id ∧ (getP a j).position = (getP b j).position ∧
    (getP a j).sigma = (getP b j).sigma ∧ (getP a j).epsilon = (getP b j).epsilon ∧
    (getP a j).state = (getP b j).state ∧ (getP a j).mass = (getP b j).mass ∧
    (getP a j).velocity = (getP b j).velocity ∧
    (getP a j).acceleration = (getP b j).acceleration ∧
    (getP a j).kinetic_energy = (getP b j).kinetic_energy := by
  have hj := h.2 j
  have h1 : (resetFP (getP a j)).id = (resetFP (getP b j)).id := congrArg Particle.id hj
  have h2 : (resetFP (getP a j)).position = (resetFP (getP b j)).position :=
    congrArg Particle.position hj
  have h3 : (resetFP (getP a j)).sigma = (resetFP (getP b j)).sigma :=
    congrArg Particle.sigma hj
  have h4 : (resetFP (getP a j)).epsilon = (resetFP (getP b j)).epsilon :=
    congrArg Particle.epsilon hj
  have h5 : (resetFP (getP a j)).state = (resetFP (getP b j)).state :=
    congrArg Particle.state hj
  have h6 : (resetFP (getP a j)).mass = (resetFP (getP b j)).mass :=
    congrArg Particle.mass hj
  have h7 : (resetFP (getP a j)).velocity = (resetFP (getP b j)).velocity :=
    congrArg Particle.velocity hj
  have h8 : (resetFP (getP a j)).acceleration = (resetFP (getP b j)).acceleration :=
    congrArg Particle.acceleration hj
  have h9 : (resetFP (getP a j)).kinetic_energy = (resetFP (getP b j)).kinetic_energy :=
    congrArg Particle.kinetic_energy hj
  exact ⟨h1, h2, h3, h4, h5, h6, h7, h8, h9⟩

theorem FPOnly_addFP (w : Vec) (pot : ℚ) : FPOnly (addFP w pot) := fun _ => rfl

theorem FPOnly_subFP (w : Vec) (pot : ℚ) : FPOnly (subFP w pot) := fun _ => rfl

theorem FPOnly_subNF (w : Vec) : FPOnly (subNF w) := fun _ => rfl

theorem dpBody_eqCore (sq : ℚ → ℚ) (ps : List Particle) (i : ℕ) :
    EqCore (dpBody sq ps i) ps := by
  simp only [dpBody]
  split
  · exact EqCore.refl ps
  · exact (EqCore_modAt _ 0 _ (FPOnly_subNF _)).trans
      (EqCore_modAt ps i _ (FPOnly_addFP _ _))

theorem dpPass_eqCore (sq : ℚ → ℚ) (ps : List Particle) :
    EqCore (dpPass sq ps) ps := by
  unfold dpPass
  exact foldl_preserve_mem _ (fun b => EqCore b ps) _
    (fun b a _ hb => (dpBody_eqCore sq b a).trans hb) ps (EqCore.refl ps)

theorem ppBody_eqCore (sq : ℚ → ℚ) (i : ℕ) (acc : List Particle × Option ℚ)
    (j : ℕ) : EqCore (ppBody sq i acc j).1 acc.1 := by
  simp only [ppBody]
  split
  · exact EqCore.refl acc.1
  all_goals
    exact (EqCore_modAt _ j _ (FPOnly_addFP _ _)).trans
      (EqCore_modAt acc.1 i _ (FPOnly_subFP _ _))

theorem ppOuter_eqCore (cs : ℚ) (sq : ℚ → ℚ) (g : Cells ℕ)
    (acc : List Particle × ℚ) (i : ℕ) :
    EqCore (ppOuter cs sq g acc i).1 acc.1 := by
  simp only [ppOuter]
  split
  · exact EqCore.refl acc.1
  · have hin : EqCore ((gridNeighbors cs g (getP acc.1 i).position).foldl
        (ppBody sq i) (acc.1, none)).1 acc.1 := by
      refine foldl_preserve_mem _ (fun b => EqCore b.1 acc.1) _
        (fun b a _ hb => (ppBody_eqCore sq i b a).trans hb) (acc.1, none)
        (EqCore.refl acc.1)
    split
    · exact hin
    · exact hin

theorem ppPass_eqCore (cs : ℚ) (sq : ℚ → ℚ) (g : Cells ℕ) (ps : List Particle) :
    EqCore (ppPass cs sq g ps).1 ps := by
  unfold ppPass
  exact foldl_preserve_mem _ (fun b => EqCore b.1 ps) _
    (fun b a _ hb => (ppOuter_eqCore cs sq g b a).trans hb) (ps, 0)
    (EqCore.refl ps)

theorem getP_default (ps : List Particle) (i : ℕ) (h : ps.length ≤ i) :
    getP ps i = default := by
  induction ps generalizing i with
  | nil => cases i <;> rfl
  | cons a t ih =>
    cases i with
    | zero => simp at h
    | succ n => simpa [getP] using ih n (by simpa using h)

/-! ## Newton's third law: the force passes change no net-force sum -/

theorem sum_dpBody (F : Particle → ℚ) (dl : Vec → ℚ)
    (hAdd : ∀ w pot p, F (addFP w pot p) = F p + dl w)
    (hSub : ∀ w p, F (subNF w p) = F p - dl w)
    (sq : ℚ → ℚ) (ps : List Particle) (i : ℕ) :
    sumF F (dpBody sq ps i) = sumF F ps := by
  simp only [dpBody]
  split
  · rfl
  · rename_i hid
    have hi : i < ps.length := by
      by_contra hle
      rw [getP_default ps i (le_of_not_lt hle)] at hid
      exact hid rfl
    have h0 : 0 < ps.length := lt_of_le_of_lt (Nat.zero_le i) hi
    rw [sumF_modAt _ _ _ _ (by simpa [length_modAt] using h0),
        sumF_modAt _ _ _ _ hi, hAdd, hSub]
    ring

theorem sum_ppBody (F : Particle → ℚ) (dl : Vec → ℚ)
    (hAdd : ∀ w pot p, F (addFP w pot p) = F p + dl w)
    (hSub : ∀ w pot p, F (subFP w pot p) = F p - dl w)
    (sq : ℚ → ℚ) (i : ℕ) (acc : List Particle × Option ℚ) (j : ℕ)
    (hi : i < acc.1.length) :
    sumF F (ppBody sq i acc j).1 = sumF F acc.1 := by
  simp only [ppBody]
  split
  · rfl
  all_goals
    rename_i hguard
    have hj : j < acc.1.length := by
      by_contra hle
      rw [getP_default acc.1 j (le_of_not_lt hle)] at hguard
      exact hguard (Or.inr rfl)
    rw [sumF_modAt _ _ _ _ (by simpa [length_modAt] using hj),
        sumF_modAt _ _ _ _ hi, hAdd, hSub]
    ring

theorem sum_ppOuter (F : Particle → ℚ) (dl : Vec → ℚ)
    (hAdd : ∀ w pot p, F (addFP w pot p) = F p + dl w)
    (hSub : ∀ w pot p, F (subFP w pot p) = F p - dl w)
    (cs : ℚ) (sq : ℚ → ℚ) (g : Cells ℕ) (acc : List Particle × ℚ) (i : ℕ) :
    sumF F (ppOuter cs sq g acc i).1 = sumF F acc.1 := by
  simp only [ppOuter]
  split
  · rfl
  · rename_i hid
    have hi : i < acc.1.length := by
      by_contra hle
      rw [getP_default acc.1 i (le_of_not_lt hle)] at hid
      exact hid rfl
    have hin : ∀ b : List Particle × Option ℚ,
        b = (gridNeighbors cs g (getP acc.1 i).position).foldl (ppBody sq i)
          (acc.1, none) →
        sumF F b.1 = sumF F acc.1 ∧ b.1.length = acc.1.length := by
      intro b hb
      subst hb
      refine foldl_preserve_mem (ppBody sq i)
        (fun b => sumF F b.1 = sumF F acc.1 ∧ b.1.length = acc.1.length)
        (gridNeighbors cs g (getP acc.1 i).position)
        (fun b a _ hb => ?_) (acc.1, none) ?_
      · refine ⟨(sum_ppBody F dl hAdd hSub sq i b a (hb.2 ▸ hi)).trans hb.1, ?_⟩
        exact (ppBody_eqCore sq i b a).1.trans hb.2
      · exact ⟨rfl, rfl⟩
    split
    · exact (hin _ rfl).1
    · exact (hin _ rfl).1

theorem sum_dpPass (F : Particle → ℚ) (dl : Vec → ℚ)
    (hAdd : ∀ w pot p, F (addFP w pot p) = F p + dl w)
    (hSub : ∀ w p, F (subNF w p) = F p - dl w)
    (sq : ℚ → ℚ) (ps : List Particle) :
    sumF F (dpPass sq ps) = sumF F ps := by
  unfold dpPass
  exact foldl_preserve_mem _ (fun b => sumF F b = sumF F ps) _
    (fun b a _ hb => (sum_dpBody F dl hAdd hSub sq b a).trans hb) ps rfl

theorem sum_ppPass (F : Particle → ℚ) (dl : Vec → ℚ)
    (hAdd : ∀ w pot p, F (addFP w pot p) = F p + dl w)
    (hSub : ∀ w pot p, F (subFP w pot p) = F p - dl w)
    (cs : ℚ) (sq : ℚ → ℚ) (g : Cells ℕ) (ps : List Particle) :
    sumF F (ppPass cs sq g ps).1 = sumF F ps := by
  unfold ppPass
  exact foldl_preserve_mem _ (fun b => sumF F b.1 = sumF F ps) _
    (fun b a _ hb => (sum_ppOuter F dl hAdd hSub cs sq g b a).trans hb) (ps, 0) rfl

theorem sumF_reset (F : Particle → ℚ) (hF : ∀ p, F (resetFP p) = 0)
    (ps : List Particle) : sumF F (ps.map resetFP) = 0 := by
  simp [sumF, List.map_map, Function.comp_def, hF]

/-- C2 (amended): within a tick, every pairwise force — drone-particle and
particle-particle — is applied equal-and-opposite to the two members of
the pair, so after the force passes the net forces over all particles sum
to exactly zero componentwise.  Consequently the velocity half-kicks
preserve total momentum; the claim's full-tick momentum invariance is
nevertheless false, because the damping step then multiplies every
velocity by `VELOCITY_DAMPING` and state transitions rescale mass and
velocity (see the counterexample). -/
theorem forces_sum_zero (pr : Params) (sq : ℚ → ℚ) (ps0 : List Particle) :
    sumF nfx (tickStages pr sq ps0).psPair = 0 ∧
    sumF nfy (tickStages pr sq ps0).psPair = 0 := by
  simp only [tickStages]
  constructor
  · rw [sum_ppPass nfx Vec.x (fun w pot p => rfl) (fun w pot p => rfl),
        sum_dpPass nfx Vec.x (fun w pot p => rfl) (fun w p => rfl),
        sumF_reset nfx (fun p => rfl)]
  · rw [sum_ppPass nfy Vec.y (fun w pot p => rfl) (fun w pot p => rfl),
        sum_dpPass nfy Vec.y (fun w pot p => rfl) (fun w p => rfl),
        sumF_reset nfy (fun p => rfl)]

/-- C8: after the boundary-handling step of a tick, every particle whose
diameter `sigma` fits in both environment dimensions lies, with its whole
effective radius `sigma / 2`, inside the environment bounds. -/
theorem boundary_containment (ps : List Particle) (q : Particle)
    (hq : q ∈ ps.map boundStep) (hx : q.sigma ≤ ENV_X) (hy : q.sigma ≤ ENV_Y) :
    q.sigma / 2 ≤ q.position.x ∧ q.position.x ≤ ENV_X - q.sigma / 2 ∧
    q.sigma / 2 ≤ q.position.y ∧ q.position.y ≤ ENV_Y - q.sigma / 2 := by
  rcases List.mem_map.mp hq with ⟨p, _, rfl⟩
  simp only [boundStep] at hx hy ⊢
  refine ⟨?_, ?_, ?_, ?_⟩ <;> split_ifs <;> linarith

theorem boundary_containment_witness :
    (boundStep pW8).sigma / 2 ≤ (boundStep pW8).position.x ∧
    (boundStep pW8).position.x ≤ ENV_X - (boundStep pW8).sigma / 2 ∧
    (boundStep pW8).sigma / 2 ≤ (boundStep pW8).position.y ∧
    (boundStep pW8).position.y ≤ ENV_Y - (boundStep pW8).sigma / 2 :=
  boundary_containment [pW8] (boundStep pW8) (by simp)
    (by norm_num [boundStep, pW8, ENV_X]) (by norm_num [boundStep, pW8, ENV_Y])

/-- C3: the excitation state machine, evaluated after velocity
integration on the energy `E = kinetic_energy + potential_energy` of the
updated particle `q = velBase sq p`: a non-drone particle transitions
`S0 → S1` exactly when `E` exceeds the threshold and `S1 → S0` exactly
when `E` is below it, the latter after scaling the velocity by the
inelastic damping factor (which is `< 1`); at `E` equal to the threshold
nothing happens, and the drone (`id = 0`) never transitions. -/
theorem excitation_state_machine (pr : Params) (sq : ℚ → ℚ) (p q : Particle)
    (hq : q = velBase sq p) (E : ℚ)
    (hE : E = q.kinetic_energy + q.potential_energy) :
    (p.id ≠ 0 →
      ((q.state = S0 ∧ E > pr.energy_threshold_s1 →
         velStep pr sq p = update_state pr q S1 ∧ (velStep pr sq p).state = S1) ∧
       (q.state = S0 ∧ ¬ E > pr.energy_threshold_s1 → velStep pr sq p = q) ∧
       (q.state = S1 ∧ E < pr.energy_threshold_s1 →
         velStep pr sq p =
           update_state pr
             { q with velocity := q.velocity.scale INELASTIC_COLLISION_DAMPING } S0 ∧
         (velStep pr sq p).state = S0 ∧
         (velStep pr sq p).velocity = q.velocity.scale INELASTIC_COLLISION_DAMPING) ∧
       (q.state = S1 ∧ ¬ E < pr.energy_threshold_s1 → velStep pr sq p = q) ∧
       (E = pr.energy_threshold_s1 → velStep pr sq p = q))) ∧
    (p.id = 0 → velStep pr sq p = velBase sq p) ∧
    q.state = p.state ∧
    INELASTIC_COLLISION_DAMPING < 1 := by
  have hid : q.id = p.id := by rw [hq]; rfl
  have hst : q.state = p.state := by rw [hq]; rfl
  have hvs : velStep pr sq p =
      if q.id ≠ 0 then
        if q.state = S0 ∧ q.kinetic_energy + q.potential_energy > pr.energy_threshold_s1 then
          update_state pr q S1
        else if q.state = S1 ∧ q.kinetic_energy + q.potential_energy < pr.energy_threshold_s1 then
          update_state pr
            { q with velocity := q.velocity.scale INELASTIC_COLLISION_DAMPING } S0
        else q
      else q := by
    rw [hq]; rfl
  subst hE
  refine ⟨fun hne => ?_, fun h0 => ?_, hst, by norm_num [INELASTIC_COLLISION_DAMPING]⟩
  · have hne' : q.id ≠ 0 := by rw [hid]; exact hne
    rw [hvs, if_pos hne']
    refine ⟨fun ⟨hs, hc⟩ => ?_, fun ⟨hs, hc⟩ => ?_, fun ⟨hs, hc⟩ => ?_,
      fun ⟨hs, hc⟩ => ?_, fun hc => ?_⟩
    · rw [if_pos ⟨hs, hc⟩]
      exact ⟨rfl, by simp [update_state, hs]⟩
    · rw [if_neg (fun h => hc h.2), if_neg (fun h => by rw [hs] at h; exact absurd h.1 (by simp))]
    · rw [if_neg (fun h => by rw [hs] at h; exact absurd h.1 (by simp)), if_pos ⟨hs, hc⟩]
      refine ⟨rfl, ?_, ?_⟩
      · simp [update_state, hs]
      · simp [update_state, hs]
    · rw [if_neg (fun h => by rw [hs] at h; exact absurd h.1 (by simp)),
          if_neg (fun h => hc h.2)]
    · rw [if_neg (fun h => by rw [hc] at h; exact absurd h.2 (lt_irrefl _)),
          if_neg (fun h => by rw [hc] at h; exact absurd h.2 (lt_irrefl _))]
  · have h0' : ¬ q.id ≠ 0 := by rw [hid, h0]; exact fun h => h rfl
    rw [hvs, if_neg h0', hq]

theorem excitation_state_machine_witness :
    velStep defaultParams ratSqrt pW3 =
      update_state defaultParams (velBase ratSqrt pW3) S1 ∧
    (velStep defaultParams ratSqrt pW3).state = S1 :=
  ((excitation_state_machine defaultParams ratSqrt pW3 (velBase ratSqrt pW3) rfl
      ((velBase ratSqrt pW3).kinetic_energy + (velBase ratSqrt pW3).potential_energy)
      rfl).1 (by norm_num [pW3])).1 ⟨rfl, by
    norm_num [velBase, pW3, Vec.mag, Vec.scale, Vec.divs, Vec.add_def, ratSqrt,
      VELOCITY_DAMPING, TIME_STEP, MAX_VELOCITY, defaultParams,
      ENERGY_THRESHOLD_S1, Int.toNat_ofNat,
      show Int.toNat 998001 = 998001 from rfl]⟩

/-- C4: processing `APPLY_IMPULSE(force_x, force_y)`.  With `L` the
computed magnitude of the direction vector: if `L` is positive and is the
true Euclidean norm (`L² = fx² + fy²`), the drone's velocity gains exactly
the direction normalized by `L`, scaled to `impulse_magnitude` and divided
by the drone's mass; and whenever the square root is exact at the old and
new speeds, the cumulative energy input grows by exactly the drone's true
kinetic-energy increase `½·m·(|v'|² − |v|²)`.  A zero direction vector is
a no-op. -/
theorem impulse_application (pr : Params) (sq : ℚ → ℚ) (fx fy : ℚ)
    (d : Particle) (ei : ℚ) (L : ℚ) (hL : L = sq (fx ^ 2 + fy ^ 2)) :
    (0 < L →
      (applyImpulse pr sq fx fy d ei).1.velocity =
        d.velocity + ((Vec.divs ⟨fx, fy⟩ L).scale pr.impulse_magnitude).divs d.mass ∧
      ((sq (d.velocity.x ^ 2 + d.velocity.y ^ 2)) ^ 2 =
          d.velocity.x ^ 2 + d.velocity.y ^ 2 →
       ∀ v' : Vec, v' = (applyImpulse pr sq fx fy d ei).1.velocity →
       (sq (v'.x ^ 2 + v'.y ^ 2)) ^ 2 = v'.x ^ 2 + v'.y ^ 2 →
       (applyImpulse pr sq fx fy d ei).2 =
         ei + (1/2 * d.mass * (v'.x ^ 2 + v'.y ^ 2) -
               1/2 * d.mass * (d.velocity.x ^ 2 + d.velocity.y ^ 2)))) ∧
    (fx = 0 → fy = 0 → sq 0 = 0 →
      applyImpulse pr sq fx fy d ei = (d, ei)) := by
  have hmag : Vec.mag sq (⟨fx, fy⟩ : Vec) = sq (fx ^ 2 + fy ^ 2) := rfl
  constructor
  · intro hpos
    have hcond : Vec.mag sq (⟨fx, fy⟩ : Vec) > 0 := by rw [hmag, ← hL]; exact hpos
    have hval : applyImpulse pr sq fx fy d ei =
        ({ d with velocity := d.velocity +
            ((Vec.divs ⟨fx, fy⟩ L).scale pr.impulse_magnitude).divs d.mass },
         ei + (1/2 * d.mass *
                 (Vec.mag sq (d.velocity +
                   ((Vec.divs ⟨fx, fy⟩ L).scale pr.impulse_magnitude).divs d.mass)) ^ 2 -
               1/2 * d.mass *
                 (Vec.mag sq ((d.velocity +
                   ((Vec.divs ⟨fx, fy⟩ L).scale pr.impulse_magnitude).divs d.mass) -
                   ((Vec.divs ⟨fx, fy⟩ L).scale pr.impulse_magnitude).divs d.mass)) ^ 2)) := by
      simp only [applyImpulse, if_pos hcond, Vec.normalize, hmag, ← hL]
      rw [if_pos hpos]
    refine ⟨by rw [hval], fun hOld v' hv' hNew => ?_⟩
    rw [hval] at hv' ⊢
    dsimp only at hv' ⊢
    subst hv'
    have hcancel : (d.velocity +
        ((Vec.divs ⟨fx, fy⟩ L).scale pr.impulse_magnitude).divs d.mass) -
        ((Vec.divs ⟨fx, fy⟩ L).scale pr.impulse_magnitude).divs d.mass = d.velocity := by
      simp only [Vec.add_def, Vec.sub_def]
      exact congrArg₂ Vec.mk (by ring) (by ring)
    rw [hcancel]
    have hOld' : (Vec.mag sq d.velocity) ^ 2 =
        d.velocity.x ^ 2 + d.velocity.y ^ 2 := hOld
    have hNew' : (Vec.mag sq (d.velocity +
        ((Vec.divs ⟨fx, fy⟩ L).scale pr.impulse_magnitude).divs d.mass)) ^ 2 =
        (d.velocity +
          ((Vec.divs ⟨fx, fy⟩ L).scale pr.impulse_magnitude).divs d.mass).x ^ 2 +
        (d.velocity +
          ((Vec.divs ⟨fx, fy⟩ L).scale pr.impulse_magnitude).divs d.mass).y ^ 2 := hNew
    rw [hOld', hNew']
  · intro hfx hfy h0
    have : ¬ Vec.mag sq (⟨fx, fy⟩ : Vec) > 0 := by
      rw [hmag, hfx, hfy]
      norm_num [h0]
    simp only [applyImpulse, if_neg this]

theorem impulse_application_witness :
    (applyImpulse defaultParams ratSqrt 3 4 droneW4 0).1.velocity =
      droneW4.velocity +
        ((Vec.divs ⟨3, 4⟩ 5).scale defaultParams.impulse_magnitude).divs droneW4.mass ∧
    (applyImpulse defaultParams ratSqrt 3 4 droneW4 0).2 =
      0 + (1/2 * droneW4.mass *
             ((⟨3000, 4000⟩ : Vec).x ^ 2 + (⟨3000, 4000⟩ : Vec).y ^ 2) -
           1/2 * droneW4.mass *
             (droneW4.velocity.x ^ 2 + droneW4.velocity.y ^ 2)) := by
  have h := impulse_application defaultParams ratSqrt 3 4 droneW4 0 5
    ((ratSqrt_eval (3 ^ 2 + 4 ^ 2) 5 (by norm_num) (by norm_num)).symm)
  have hA := h.1 (by norm_num)
  refine ⟨hA.1, ?_⟩
  refine hA.2 ?_ ⟨3000, 4000⟩ ?_ ?_
  · rw [show droneW4.velocity.x ^ 2 + droneW4.velocity.y ^ 2 = (0 : ℚ) ^ 2 by
        norm_num [droneW4], ratSqrt_sq 0 le_rfl]
  · rw [hA.1]
    norm_num [droneW4, Vec.divs, Vec.scale, Vec.add_def, defaultParams, DRONE_MASS]
  · rw [show (⟨3000, 4000⟩ : Vec).x ^ 2 + (⟨3000, 4000⟩ : Vec).y ^ 2 = (5000 : ℚ) ^ 2 by
        norm_num, ratSqrt_sq 5000 (by norm_num)]

theorem velStep_id_zero (pr : Params) (sq : ℚ → ℚ) (p : Particle)
    (h : p.id = 0) : velStep pr sq p = velBase sq p := by
  have hb : (velBase sq p).id = p.id := rfl
  simp only [velStep]
  rw [if_neg (by rw [hb, h]; exact fun hc => hc rfl)]

/-- C10: on every running tick, any particle in state `'S0'` has its
`epsilon` overwritten with the live `s0_epsilon` tunable at the start of
the position-update phase; since the drone (`particles[0]`, `id` 0) is
created in state `'S0'` and is exempt from the state machine, after one
tick its `epsilon` equals `s0_epsilon` (default `2.0`) rather than its
configured `DRONE_EPSILON = 50.0` — every drone-particle Lennard-Jones
`epsilon_avg = sqrt(p.epsilon · drone.epsilon)` is computed from the
weaker value. -/
theorem drone_epsilon_overwrite (pr : Params) (sq : ℚ → ℚ) (s : EngState)
    (hne : s.particles ≠ []) (hid : (getP s.particles 0).id = 0)
    (hS : (getP s.particles 0).state = S0) :
    (∀ p : Particle, p.state = S0 → (posStepP pr p).epsilon = pr.s0_epsilon) ∧
    (getP (runTick pr sq s).1.particles 0).epsilon = pr.s0_epsilon ∧
    (getP (runTick pr sq s).1.particles 0).state = S0 ∧
    S0_EPSILON < DRONE_EPSILON := by
  have hgen : ∀ p : Particle, p.state = S0 → (posStepP pr p).epsilon = pr.s0_epsilon := by
    intro p hp
    simp [posStepP, hp]
  have hrt : (runTick pr sq s).1.particles =
      ((ppPass CELL_SIZE sq
          (buildGrid CELL_SIZE ((s.particles.map (posStepP pr)).map resetFP))
          (dpPass sq ((s.particles.map (posStepP pr)).map resetFP))).1.map
        (velStep pr sq)).map boundStep := by
    simp only [runTick, tickStages]
  have hn : 0 < s.particles.length := List.length_pos.mpr hne
  have hnA : 0 < (s.particles.map (posStepP pr)).length := by simpa using hn
  have hnB : 0 < ((s.particles.map (posStepP pr)).map resetFP).length := by simpa using hn
  -- after the position phase
  have hA : getP (s.particles.map (posStepP pr)) 0 = posStepP pr (getP s.particles 0) :=
    getP_map _ _ _ hn
  have hA_eps : (getP (s.particles.map (posStepP pr)) 0).epsilon = pr.s0_epsilon := by
    rw [hA]; exact hgen _ hS
  have hA_st : (getP (s.particles.map (posStepP pr)) 0).state = S0 := by
    rw [hA]; simp [posStepP, hS]
  have hA_id : (getP (s.particles.map (posStepP pr)) 0).id = 0 := by
    rw [hA]; simp [posStepP, hS, hid]
  -- after the reset
  have hB : getP ((s.particles.map (posStepP pr)).map resetFP) 0 =
      resetFP (getP (s.particles.map (posStepP pr)) 0) := getP_map _ _ _ hnA
  have hB_eps : (getP ((s.particles.map (posStepP pr)).map resetFP) 0).epsilon =
      pr.s0_epsilon := by rw [hB]; exact hA_eps
  have hB_st : (getP ((s.particles.map (posStepP pr)).map resetFP) 0).state = S0 := by
    rw [hB]; exact hA_st
  have hB_id : (getP ((s.particles.map (posStepP pr)).map resetFP) 0).id = 0 := by
    rw [hB]; exact hA_id
  -- through both force passes
  have eDP := dpPass_eqCore sq ((s.particles.map (posStepP pr)).map resetFP)
  have ePP := ppPass_eqCore CELL_SIZE sq
    (buildGrid CELL_SIZE ((s.particles.map (posStepP pr)).map resetFP))
    (dpPass sq ((s.particles.map (posStepP pr)).map resetFP))
  have eAll := ePP.trans eDP
  have hC_eps : (getP (ppPass CELL_SIZE sq
      (buildGrid CELL_SIZE ((s.particles.map (posStepP pr)).map resetFP))
      (dpPass sq ((s.particles.map (posStepP pr)).map resetFP))).1 0).epsilon =
      pr.s0_epsilon := ((eAll.fields 0).2.2.2.1).trans hB_eps
  have hC_st : (getP (ppPass CELL_SIZE sq
      (buildGrid CELL_SIZE ((s.particles.map (posStepP pr)).map resetFP))
      (dpPass sq ((s.particles.map (posStepP pr)).map resetFP))).1 0).state = S0 :=
    ((eAll.fields 0).2.2.2.2.1).trans hB_st
  have hC_id : (getP (ppPass CELL_SIZE sq
      (buildGrid CELL_SIZE ((s.particles.map (posStepP pr)).map resetFP))
      (dpPass sq ((s.particles.map (posStepP pr)).map resetFP))).1 0).id = 0 :=
    ((eAll.fields 0).1).trans hB_id
  have hnC : 0 < (ppPass CELL_SIZE sq
      (buildGrid CELL_SIZE ((s.particles.map (posStepP pr)).map resetFP))
      (dpPass sq ((s.particles.map (posStepP pr)).map resetFP))).1.length := by
    rw [eAll.1]; exact hnB
  -- velocity phase at the drone
  have hD : getP ((ppPass CELL_SIZE sq
      (buildGrid CELL_SIZE ((s.particles.map (posStepP pr)).map resetFP))
      (dpPass sq ((s.particles.map (posStepP pr)).map resetFP))).1.map
        (velStep pr sq)) 0 =
      velStep pr sq (getP (ppPass CELL_SIZE sq
        (buildGrid CELL_SIZE ((s.particles.map (posStepP pr)).map resetFP))
        (dpPass sq ((s.particles.map (posStepP pr)).map resetFP))).1 0) :=
    getP_map _ _ _ hnC
  rw [hrt]
  have hnD : 0 < ((ppPass CELL_SIZE sq
      (buildGrid CELL_SIZE ((s.particles.map (posStepP pr)).map resetFP))
      (dpPass sq ((s.particles.map (posStepP pr)).map resetFP))).1.map
        (velStep pr sq)).length := by simpa using hnC
  have hE := getP_map boundStep ((ppPass CELL_SIZE sq
      (buildGrid CELL_SIZE ((s.particles.map (posStepP pr)).map resetFP))
      (dpPass sq ((s.particles.map (posStepP pr)).map resetFP))).1.map
        (velStep pr sq)) 0 hnD
  rw [hE, hD, velStep_id_zero pr sq _ hC_id]
  refine ⟨hgen, ?_, ?_, by norm_num [S0_EPSILON, DRONE_EPSILON]⟩
  · show (velBase sq _).epsilon = pr.s0_epsilon
    exact hC_eps
  · show (velBase sq _).state = S0
    exact hC_st

theorem drone_epsilon_overwrite_witness :
    (getP (runTick defaultParams ratSqrt engW10).1.particles 0).epsilon =
      defaultParams.s0_epsilon ∧
    (getP (runTick defaultParams ratSqrt engW10).1.particles 0).state = S0 ∧
    S0_EPSILON < DRONE_EPSILON := by
  have h := drone_epsilon_overwrite defaultParams ratSqrt engW10
    (by simp [engW10]) (by simp [engW10, getP, droneW4])
    (by simp [engW10, getP, droneW4])
  exact ⟨h.2.1, h.2.2.1, h.2.2.2⟩

theorem truncQ_mono {a b : ℚ} (h : a ≤ b) : truncQ a ≤ truncQ b := by
  unfold truncQ
  split_ifs with ha hb hb
  · exact Int.floor_le_floor h
  · exact absurd (le_trans ha h) hb
  · have h1 : (⌈a⌉ : ℤ) ≤ 0 := Int.ceil_le.mpr (by push_cast; exact le_of_not_le ha)
    have h2 : (0 : ℤ) ≤ ⌊b⌋ := Int.floor_nonneg.mpr hb
    omega
  · exact Int.ceil_le_ceil h

theorem truncQ_add_one_le (a : ℚ) : truncQ (a + 1) ≤ truncQ a + 1 := by
  unfold truncQ
  split_ifs with h1 h2 h2
  · rw [show a + (1 : ℚ) = a + (1 : ℤ) by norm_num, Int.floor_add_int]
  · have ha : -1 ≤ a := by linarith
    have hf : ⌊a + 1⌋ < 1 := Int.floor_lt.mpr (by push_cast; linarith [lt_of_not_le h2])
    have hc : (-1 : ℤ) ≤ ⌈a⌉ := by
      have := Int.ceil_le_ceil ha
      simpa using this
    omega
  · exact absurd (by linarith : (0 : ℚ) ≤ a + 1) h1
  · rw [show a + (1 : ℚ) = a + (1 : ℤ) by norm_num, Int.ceil_add_int]

theorem truncQ_diff_le {a b : ℚ} (h : |a - b| ≤ 1) :
    |truncQ a - truncQ b| ≤ 1 := by
  rcases abs_le.mp h with ⟨h1, h2⟩
  have t1 : truncQ a ≤ truncQ b + 1 :=
    le_trans (truncQ_mono (by linarith : a ≤ b + 1)) (truncQ_add_one_le b)
  have t2 : truncQ b ≤ truncQ a + 1 :=
    le_trans (truncQ_mono (by linarith : b ≤ a + 1)) (truncQ_add_one_le a)
  rw [abs_le]
  omega

theorem truncQ_div_diff {cs : ℚ} (hcs : 0 < cs) (x1 x2 : ℚ)
    (h : |x1 - x2| ≤ cs) : |truncQ (x1 / cs) - truncQ (x2 / cs)| ≤ 1 := by
  apply truncQ_diff_le
  rw [div_sub_div_same, abs_div, abs_of_pos hcs, div_le_one hcs]
  exact h

theorem mem_insertAll_aux (cs : ℚ) (q : Particle) :
    ∀ (ps : List Particle) (cells : Cells Particle),
      (q ∈ ps ∨ q ∈ cells (cellCoords cs q.position)) →
      q ∈ (ps.foldl (fun cls p => gridInsert cs cls p.position p) cells)
        (cellCoords cs q.position) := by
  intro ps
  induction ps with
  | nil =>
    intro cells h
    rcases h with h | h
    · simp at h
    · exact h
  | cons p t ih =>
    intro cells h
    apply ih
    rcases h with h | h
    · rcases List.mem_cons.mp h with rfl | ht
      · right
        simp [gridInsert]
      · left
        exact ht
    · right
      simp only [gridInsert]
      split
      · exact List.mem_append_left _ h
      · exact h

theorem mem_insertAllP (cs : ℚ) (ps : List Particle) (q : Particle)
    (hq : q ∈ ps) : q ∈ insertAllP cs ps (cellCoords cs q.position) :=
  mem_insertAll_aux cs q ps (emptyCells Particle) (Or.inl hq)

theorem mem_gridNeighbors {α : Type} (cs : ℚ) (g : Cells α) (pos : Vec)
    (x : α) (c : ℤ × ℤ) (hc : x ∈ g c)
    (h1 : |c.1 - (cellCoords cs pos).1| ≤ 1)
    (h2 : |c.2 - (cellCoords cs pos).2| ≤ 1) :
    x ∈ gridNeighbors cs g pos := by
  simp only [gridNeighbors, List.mem_append]
  obtain ⟨cx, cy⟩ := c
  simp only at hc h1 h2
  have hx : cx = (cellCoords cs pos).1 - 1 ∨ cx = (cellCoords cs pos).1 ∨
      cx = (cellCoords cs pos).1 + 1 := by rw [abs_le] at h1; omega
  have hy : cy = (cellCoords cs pos).2 - 1 ∨ cy = (cellCoords cs pos).2 ∨
      cy = (cellCoords cs pos).2 + 1 := by rw [abs_le] at h2; omega
  rcases hx with rfl | rfl | rfl <;> rcases hy with rfl | rfl | rfl <;> tauto

/-- C6: with the grid rebuilt for the tick — cleared and every particle of
the list inserted at its current position — any two particles whose
Euclidean distance is at most `cell_size` (stated on squared distances)
each appear in the other's `get_neighbors` query. -/
theorem grid_neighbor_superset (cell_size : ℚ) (hcs : 0 < cell_size)
    (ps : List Particle) (p q : Particle) (hp : p ∈ ps) (hq : q ∈ ps)
    (hdist : (p.position.x - q.position.x) ^ 2 +
        (p.position.y - q.position.y) ^ 2 ≤ cell_size ^ 2) :
    q ∈ gridNeighbors cell_size (insertAllP cell_size ps) p.position ∧
    p ∈ gridNeighbors cell_size (insertAllP cell_size ps) q.position := by
  have hdx : |p.position.x - q.position.x| ≤ cell_size := by
    rw [abs_le]
    constructor <;>
      nlinarith [sq_nonneg (p.position.y - q.position.y),
        sq_nonneg (p.position.x - q.position.x + cell_size),
        sq_nonneg (p.position.x - q.position.x - cell_size), hcs.le]
  have hdy : |p.position.y - q.position.y| ≤ cell_size := by
    rw [abs_le]
    constructor <;>
      nlinarith [sq_nonneg (p.position.x - q.position.x),
        sq_nonneg (p.position.y - q.position.y + cell_size),
        sq_nonneg (p.position.y - q.position.y - cell_size), hcs.le]
  have hc1 : |truncQ (q.position.x / cell_size) - truncQ (p.position.x / cell_size)| ≤ 1 :=
    truncQ_div_diff hcs q.position.x p.position.x (by rw [abs_sub_comm]; exact hdx)
  have hc2 : |truncQ (q.position.y / cell_size) - truncQ (p.position.y / cell_size)| ≤ 1 :=
    truncQ_div_diff hcs q.position.y p.position.y (by rw [abs_sub_comm]; exact hdy)
  have hc1' : |truncQ (p.position.x / cell_size) - truncQ (q.position.x / cell_size)| ≤ 1 := by
    rw [abs_sub_comm]; exact hc1
  have hc2' : |truncQ (p.position.y / cell_size) - truncQ (q.position.y / cell_size)| ≤ 1 := by
    rw [abs_sub_comm]; exact hc2
  constructor
  · exact mem_gridNeighbors cell_size _ p.position q (cellCoords cell_size q.position)
      (mem_insertAllP cell_size ps q hq) hc1 hc2
  · exact mem_gridNeighbors cell_size _ q.position p (cellCoords cell_size p.position)
      (mem_insertAllP cell_size ps p hp) hc1' hc2'

theorem grid_neighbor_superset_witness :
    pW6b ∈ gridNeighbors 60 (insertAllP 60 [pW6a, pW6b]) pW6a.position ∧
    pW6a ∈ gridNeighbors 60 (insertAllP 60 [pW6a, pW6b]) pW6b.position :=
  grid_neighbor_superset 60 (by norm_num) [pW6a, pW6b] pW6a pW6b (by simp)
    (by simp) (by norm_num [pW6a, pW6b])

/-- C5 (amended): the engine has no drone kinematic modes.  The position
phase applies the same half-step formula to every particle, drone
included, never forcing velocity or acceleration to zero; and the whole
tick is invariant under any `drone_mode` entry stored in the tunable
parameters, which no code reads. -/
theorem drone_position_halfstep (pr : Params) (sq : ℚ → ℚ) (p : Particle)
    (ps : List Particle) (s : EngState) (m : Option String) :
    (posStepP pr p).position = p.position + p.velocity.scale TIME_STEP +
      p.acceleration.scale (1/2 * TIME_STEP ^ 2) ∧
    (posStepP pr p).velocity = p.velocity + p.acceleration.scale (1/2 * TIME_STEP) ∧
    (tickStages pr sq ps).psPos = ps.map (posStepP pr) ∧
    runTick { pr with drone_mode := m } sq s = runTick pr sq s := by
  refine ⟨?_, ?_, rfl, rfl⟩
  · by_cases h : p.state = S0 <;> simp [posStepP, h]
  · by_cases h : p.state = S0 <;> simp [posStepP, h]

/-- C5 (counterexample): with `drone_mode` set to `"idle"`, one running
tick does not hold the drone at the environment center with zero velocity
and acceleration; the drone is integrated dynamically — its position
advances by the half-step formula `center + v·dt` and its velocity is
merely damped, not zeroed. -/
theorem drone_not_kinematic_counterexample :
    prIdle.drone_mode = some "idle" ∧
    (getP (runTick prIdle ratSqrt engC5).1.particles 0).velocity = ⟨999/10, 0⟩ ∧
    (⟨999/10, 0⟩ : Vec) ≠ (⟨0, 0⟩ : Vec) ∧
    (getP (runTick prIdle ratSqrt engC5).1.particles 0).position = ⟨801/2, 300⟩ ∧
    (801/2 : ℚ) = 400 + 100 * TIME_STEP := by
  have hs1 : ratSqrt 10000 = 100 := ratSqrt_eval 10000 100 (by norm_num) (by norm_num)
  have hs2 : ratSqrt (998001/100) = 999/10 :=
    ratSqrt_eval (998001/100) (999/10) (by norm_num) (by norm_num)
  refine ⟨rfl, ?_, by simp [Vec.mk.injEq], ?_, by norm_num [TIME_STEP]⟩ <;>
    norm_num [runTick, tickStages, totalKE, posStepP, resetFP, buildGrid, dpPass,
      dpBody, ppPass, ppOuter, ppBody, velStep, velBase, boundStep, update_state,
      getP, modAt, gridInsert, gridNeighbors, emptyCells, cellCoords, truncQ,
      Vec.mag, Vec.scale, Vec.divs, Vec.add_def, Vec.sub_def, Vec.normalize,
      engC5, droneC5, prIdle, defaultParams, TIME_STEP, VELOCITY_DAMPING,
      MAX_VELOCITY, DRONE_MASS, DRONE_SIGMA, DRONE_EPSILON, ENV_X, ENV_Y,
      ENERGY_THRESHOLD_S1, S0_EPSILON, CELL_SIZE, List.range_succ, hs1, hs2]

/-- C1 (amended): each tick `heat_dissipated` is incremented by the total
kinetic energy measured at the very top of the tick — before the position
half-step and both velocity half-kicks — minus the total kinetic energy
measured after the whole velocity-update loop (half-kicks, damping, speed
clamp and inelastic transition damping included); the increment is not the
delta of the damping step alone, and it can be negative. -/
theorem heat_increment_measurement (pr : Params) (sq : ℚ → ℚ) (s : EngState) :
    (runTick pr sq s).1.total_heat_dissipated =
      s.total_heat_dissipated +
        (totalKE sq s.particles - totalKE sq (tickStages pr sq s.particles).psVel) :=
  rfl

/-- C1 (counterexample): starting from rest with zero accumulated heat,
one tick drives `heat_dissipated` negative — the repulsive pair force adds
kinetic energy between the two measurement points — so the increment is
not the (nonnegative) delta of the damping step alone, and cumulative
`heat_dissipated` is not monotonically non-negative. -/
theorem heat_not_damping_delta_counterexample :
    (runTick defaultParams ratSqrt engC1).1.total_heat_dissipated < 0 ∧
    (tickStages defaultParams ratSqrt engC1.particles).heat_this_step ≠
      dampDeltaOnly ratSqrt (tickStages defaultParams ratSqrt engC1.particles).psPair ∧
    0 < dampDeltaOnly ratSqrt (tickStages defaultParams ratSqrt engC1.particles).psPair := by
  have hs0 : ratSqrt 0 = 0 := ratSqrt_eval 0 0 (by norm_num) (by norm_num)
  have hs400 : ratSqrt 400 = 20 := ratSqrt_eval 400 20 (by norm_num) (by norm_num)
  have hs4 : ratSqrt 4 = 2 := ratSqrt_eval 4 2 (by norm_num) (by norm_num)
  have hsv2 : ratSqrt (406634746402536888516930966969/295147905179352825856000000000000) =
      637679187681813/17179869184000000 :=
    ratSqrt_eval _ _ (by norm_num) (by norm_num)
  have hsv1 : ratSqrt (407449237428155771904969/295147905179352825856000000) =
      638317505187/17179869184000 :=
    ratSqrt_eval _ _ (by norm_num) (by norm_num)
  refine ⟨?_, ?_, ?_⟩ <;>
    norm_num [runTick, tickStages, totalKE, posStepP, resetFP, buildGrid, dpPass,
      dpBody, ppPass, ppOuter, ppBody, velStep, velBase, boundStep, update_state,
      addFP, subFP, subNF, dampDeltaOnly, getP, modAt, gridInsert, gridNeighbors,
      emptyCells, cellCoords, truncQ, Vec.mag, Vec.scale, Vec.divs, Vec.add_def,
      Vec.sub_def, Vec.normalize, engC1, droneC1, pC1, defaultParams, TIME_STEP,
      VELOCITY_DAMPING, MAX_VELOCITY, MIN_INTERACTION_DISTANCE, DRONE_MASS,
      DRONE_SIGMA, DRONE_EPSILON, ENV_X, ENV_Y, ENERGY_THRESHOLD_S1, S0_EPSILON,
      S1_EPSILON, S1_MASS, S1_SIGMA, S0_MASS, S0_SIGMA, INELASTIC_COLLISION_DAMPING,
      CELL_SIZE, List.range_succ, show (S0 = S1) = False by decide,
      show (S1 = S0) = False by decide, hs0, hs400, hs4, hsv2, hsv1]

/-- Stage evaluation for the momentum counterexample: state after the
position phase and the force/potential reset. -/
theorem engC2_reset :
    (engC2.particles.map (posStepP defaultParams)).map resetFP =
      [{ id := 0, position := ⟨400, 300⟩, velocity := ⟨0, 0⟩
         acceleration := ⟨0, 0⟩, net_force := ⟨0, 0⟩, state := S0, mass := 1
         sigma := 30, epsilon := 2, kinetic_energy := 0, potential_energy := 0 },
       { id := 1, position := ⟨445, 300⟩, velocity := ⟨1/5, 0⟩
         acceleration := ⟨0, 0⟩, net_force := ⟨0, 0⟩, state := S0, mass := 1
         sigma := 15, epsilon := 2, kinetic_energy := 0, potential_energy := 0 }] := by
  norm_num [posStepP, resetFP, engC2, droneC2, pC2, defaultParams, TIME_STEP,
    S0_EPSILON, DRONE_MASS, DRONE_SIGMA, DRONE_EPSILON, Vec.scale, Vec.add_def,
    Particle.mk.injEq, Vec.mk.injEq]

/-- Stage evaluation: state after the drone-particle force pass. -/
theorem engC2_psDrone :
    (tickStages defaultParams ratSqrt engC2.particles).psDrone =
      [{ id := 0, position := ⟨400, 300⟩, velocity := ⟨0, 0⟩
         acceleration := ⟨0, 0⟩, net_force := ⟨31/1920, 0⟩, state := S0, mass := 1
         sigma := 30, epsilon := 2, kinetic_energy := 0, potential_energy := 0 },
       { id := 1, position := ⟨445, 300⟩, velocity := ⟨1/5, 0⟩
         acceleration := ⟨0, 0⟩, net_force := ⟨-31/1920, 0⟩, state := S0, mass := 1
         sigma := 15, epsilon := 2, kinetic_energy := 0
         potential_energy := -63/512 }] := by
  have hs2025 : ratSqrt 2025 = 45 := ratSqrt_eval 2025 45 (by norm_num) (by norm_num)
  have hs4 : ratSqrt 4 = 2 := ratSqrt_eval 4 2 (by norm_num) (by norm_num)
  have h : (tickStages defaultParams ratSqrt engC2.particles).psDrone =
      dpPass ratSqrt ((engC2.particles.map (posStepP defaultParams)).map resetFP) := by
    simp only [tickStages]
  rw [h, engC2_reset]
  norm_num [dpPass, dpBody, addFP, subNF, getP, modAt, List.range_succ,
    Vec.mag, Vec.scale, Vec.divs, Vec.add_def, Vec.sub_def, Vec.normalize,
    MIN_INTERACTION_DISTANCE, hs2025, hs4, Particle.mk.injEq, Vec.mk.injEq]

/-- Stage evaluation: the particle-particle pass is a no-op here (the only
non-drone particle has no evaluated pair), so the velocity phase acts on
the post-drone-force state. -/
theorem engC2_psVel :
    (tickStages defaultParams ratSqrt engC2.particles).psVel =
      [{ id := 0, position := ⟨400, 300⟩, velocity := ⟨10323/256000000, 0⟩
         acceleration := ⟨31/1920, 0⟩, net_force := ⟨31/1920, 0⟩, state := S0
         mass := 1, sigma := 30, epsilon := 2
         kinetic_energy := 106564329/131072000000000000, potential_energy := 0 },
       { id := 1, position := ⟨445, 300⟩, velocity := ⟨51138477/256000000, 0⟩
         acceleration := ⟨-31/1920, 0⟩, net_force := ⟨-31/1920, 0⟩, state := S0
         mass := 1, sigma := 15, epsilon := 2
         kinetic_energy := 2615143829879529/131072000000000000
         potential_energy := -63/512 }] := by
  have hs2025 : ratSqrt 2025 = 45 := ratSqrt_eval 2025 45 (by norm_num) (by norm_num)
  have hs4 : ratSqrt 4 = 2 := ratSqrt_eval 4 2 (by norm_num) (by norm_num)
  have hsvp : ratSqrt (2615143829879529/65536000000000000) = 51138477/256000000 :=
    ratSqrt_eval _ _ (by norm_num) (by norm_num)
  have hsvd : ratSqrt (106564329/65536000000000000) = 10323/256000000 :=
    ratSqrt_eval _ _ (by norm_num) (by norm_num)
  have h : (tickStages defaultParams ratSqrt engC2.particles).psVel =
      ((ppPass CELL_SIZE ratSqrt
          (buildGrid CELL_SIZE ((engC2.particles.map (posStepP defaultParams)).map resetFP))
          (dpPass ratSqrt ((engC2.particles.map (posStepP defaultParams)).map resetFP))).1.map
        (velStep defaultParams ratSqrt)) := by
    simp only [tickStages]
  have h2 : dpPass ratSqrt ((engC2.particles.map (posStepP defaultParams)).map resetFP) =
      (tickStages defaultParams ratSqrt engC2.particles).psDrone := by
    simp only [tickStages]
  rw [h, h2, engC2_psDrone, engC2_reset]
  norm_num [ppPass, ppOuter, ppBody, velStep, velBase, update_state, addFP, subFP,
    getP, modAt, List.range_succ, buildGrid, gridInsert, gridNeighbors, emptyCells,
    cellCoords, truncQ, Vec.mag, Vec.scale, Vec.divs, Vec.add_def, Vec.sub_def,
    Vec.normalize, CELL_SIZE, TIME_STEP, VELOCITY_DAMPING, MAX_VELOCITY,
    MIN_INTERACTION_DISTANCE, ENERGY_THRESHOLD_S1, defaultParams, S0_EPSILON,
    S1_EPSILON, S0_MASS, S0_SIGMA, S1_MASS, S1_SIGMA, INELASTIC_COLLISION_DAMPING,
    show (S0 = S1) = False by decide, show (S1 = S0) = False by decide,
    hs2025, hs4, hsvp, hsvd, Particle.mk.injEq, Vec.mk.injEq]

/-- C2 (counterexample): a tick with no `ApplyImpulse` processed (the
modelled tick drains no messages) and no boundary reflection (the boundary
step is the identity here, last conjunct) still changes total momentum:
the damping step scales it from `1/5` to `999/5000`. -/
theorem momentum_not_invariant_counterexample :
    (engC2.particles.map (fun p => p.mass * p.velocity.x)).sum = 1/5 ∧
    (engC2.particles.map (fun p => p.mass * p.velocity.y)).sum = 0 ∧
    (runTick defaultParams ratSqrt engC2).2.momentum_x = 999/5000 ∧
    (runTick defaultParams ratSqrt engC2).2.momentum_y = 0 ∧
    (999/5000 : ℚ) ≠ 1/5 ∧
    (tickStages defaultParams ratSqrt engC2.particles).psBound =
      (tickStages defaultParams ratSqrt engC2.particles).psVel := by
  have hb : (tickStages defaultParams ratSqrt engC2.particles).psBound =
      (tickStages defaultParams ratSqrt engC2.particles).psVel.map boundStep := by
    simp only [tickStages]
  have hbv : (tickStages defaultParams ratSqrt engC2.particles).psBound =
      (tickStages defaultParams ratSqrt engC2.particles).psVel := by
    rw [hb, engC2_psVel]
    norm_num [boundStep, ENV_X, ENV_Y, Particle.mk.injEq, Vec.mk.injEq]
  have hmx : (runTick defaultParams ratSqrt engC2).2.momentum_x =
      (((tickStages defaultParams ratSqrt engC2.particles).psBound).map
        (fun p => p.mass * p.velocity.x)).sum := by
    simp only [runTick]
  have hmy : (runTick defaultParams ratSqrt engC2).2.momentum_y =
      (((tickStages defaultParams ratSqrt engC2.particles).psBound).map
        (fun p => p.mass * p.velocity.y)).sum := by
    simp only [runTick]
  refine ⟨by norm_num [engC2, droneC2, pC2], by norm_num [engC2, droneC2, pC2],
    ?_, ?_, by norm_num, hbv⟩
  · rw [hmx, hbv, engC2_psVel]
    norm_num
  · rw [hmy, hbv, engC2_psVel]
    norm_num

theorem ppBody_snd_decl (sq : ℚ → ℚ) (i : ℕ) (acc : List Particle × Option ℚ)
    (j : ℕ) (ps0 : List Particle) (hE : EqCore acc.1 ps0) :
    (ppBody sq i acc j).2 = nnStep sq ps0 i acc.2 j := by
  have hidi := (hE.fields i).1
  have hposi := (hE.fields i).2.1
  have hidj := (hE.fields j).1
  have hposj := (hE.fields j).2.1
  simp only [ppBody, nnStep, hidi, hposi, hidj, hposj]
  split
  · rfl
  · rfl

theorem ppInner_decl (sq : ℚ → ℚ) (i : ℕ) (ps0 : List Particle) :
    ∀ (l : List ℕ) (st : List Particle) (mds : Option ℚ), EqCore st ps0 →
      (l.foldl (ppBody sq i) (st, mds)).2 = l.foldl (nnStep sq ps0 i) mds ∧
      EqCore (l.foldl (ppBody sq i) (st, mds)).1 ps0 := by
  intro l
  induction l with
  | nil => exact fun st mds h => ⟨rfl, h⟩
  | cons j t ih =>
    intro st mds h
    rcases hpb : ppBody sq i (st, mds) j with ⟨st2, mds2⟩
    have hE2 : EqCore st2 ps0 := by
      have h2 := (ppBody_eqCore sq i (st, mds) j).trans h
      rwa [hpb] at h2
    have hm2 : mds2 = nnStep sq ps0 i mds j := by
      have h3 := ppBody_snd_decl sq i (st, mds) j ps0 h
      rwa [hpb] at h3
    rw [List.foldl_cons, List.foldl_cons, hpb, ← hm2]
    exact ih st2 mds2 hE2

theorem ppOuter_decl (cs : ℚ) (sq : ℚ → ℚ) (g : Cells ℕ) (st : List Particle)
    (tot : ℚ) (i : ℕ) (ps0 : List Particle) (hE : EqCore st ps0) :
    (ppOuter cs sq g (st, tot) i).2 = tot + nnContrib cs sq g ps0 i ∧
    EqCore (ppOuter cs sq g (st, tot) i).1 ps0 := by
  have hidi := (hE.fields i).1
  have hposi := (hE.fields i).2.1
  have hin := ppInner_decl sq i ps0
    (gridNeighbors cs g (getP ps0 i).position) st none hE
  simp only [ppOuter, nnContrib, hidi, hposi]
  split
  · exact ⟨(add_zero tot).symm, hE⟩
  · rw [show nnMinSq cs sq g ps0 i =
      (gridNeighbors cs g (getP ps0 i).position).foldl (nnStep sq ps0 i) none
      from rfl, ← hin.1]
    rcases hsc : ((gridNeighbors cs g (getP ps0 i).position).foldl
        (ppBody sq i) (st, none)).2 with _ | d
    · exact ⟨(add_zero tot).symm, hin.2⟩
    · exact ⟨rfl, hin.2⟩

theorem ppPass_decl (cs : ℚ) (sq : ℚ → ℚ) (g : Cells ℕ) (ps0 : List Particle) :
    ∀ (l : List ℕ) (st : List Particle) (tot : ℚ), EqCore st ps0 →
      (l.foldl (ppOuter cs sq g) (st, tot)).2 =
        tot + (l.map (nnContrib cs sq g ps0)).sum ∧
      EqCore (l.foldl (ppOuter cs sq g) (st, tot)).1 ps0 := by
  intro l
  induction l with
  | nil => exact fun st tot h => ⟨by simp, h⟩
  | cons i t ih =>
    intro st tot h
    rcases hpo : ppOuter cs sq g (st, tot) i with ⟨st2, tot2⟩
    have hdec := ppOuter_decl cs sq g st tot i ps0 h
    rw [hpo] at hdec
    rw [List.foldl_cons, hpo, List.map_cons, List.sum_cons]
    have := ih st2 tot2 hdec.2
    refine ⟨?_, this.2⟩
    have h4 : tot2 = tot + nnContrib cs sq g ps0 i := hdec.1
    rw [this.1, h4]
    ring

theorem ppPass_snd_decl (cs : ℚ) (sq : ℚ → ℚ) (g : Cells ℕ)
    (ps : List Particle) :
    (ppPass cs sq g ps).2 =
      ((List.range ps.length).map (nnContrib cs sq g ps)).sum := by
  have h := (ppPass_decl cs sq g ps (List.range ps.length) ps 0 (EqCore.refl ps)).1
  simpa [ppPass] using h

/-- C9 (amended): the per-tick order metric is the average, over non-drone
particles, of the distance — not the squared distance — from each particle
to its nearest evaluated neighbor of the particle-particle force pass
(particles with no evaluated pair contribute zero, and the divisor is the
non-drone particle count). -/
theorem order_metric_avg_distance (pr : Params) (sq : ℚ → ℚ) (s : EngState) :
    (runTick pr sq s).2.order =
      orderDecl CELL_SIZE sq (tickStages pr sq s.particles).grid
        (tickStages pr sq s.particles).psDrone := by
  have hlen : (tickStages pr sq s.particles).psBound.length =
      (tickStages pr sq s.particles).psDrone.length := by
    simp only [tickStages, List.length_map]
    exact (ppPass_eqCore _ _ _ _).1
  have htot : (tickStages pr sq s.particles).total_nn_dist =
      ((List.range (tickStages pr sq s.particles).psDrone.length).map
        (nnContrib CELL_SIZE sq (tickStages pr sq s.particles).grid
          (tickStages pr sq s.particles).psDrone)).sum := by
    have h1 : (tickStages pr sq s.particles).total_nn_dist =
        (ppPass CELL_SIZE sq (tickStages pr sq s.particles).grid
          (tickStages pr sq s.particles).psDrone).2 := by
      simp only [tickStages]
    rw [h1, ppPass_snd_decl]
  have horder : (runTick pr sq s).2.order =
      (if 0 < (tickStages pr sq s.particles).psBound.length - 1 then
        (tickStages pr sq s.particles).total_nn_dist /
          (((tickStages pr sq s.particles).psBound.length - 1 : ℕ) : ℚ)
      else 0) := rfl
  rw [horder, htot, hlen, orderDecl]

theorem engC9_reset :
    (engC9.particles.map (posStepP defaultParams)).map resetFP =
      [{ id := 0, position := ⟨100, 280⟩, velocity := ⟨0, 0⟩
         acceleration := ⟨0, 0⟩, net_force := ⟨0, 0⟩, state := S0, mass := 1
         sigma := 30, epsilon := 2, kinetic_energy := 0, potential_energy := 0 },
       { id := 1, position := ⟨100, 100⟩, velocity := ⟨0, 0⟩
         acceleration := ⟨0, 0⟩, net_force := ⟨0, 0⟩, state := S0, mass := 1
         sigma := 15, epsilon := 2, kinetic_energy := 0, potential_energy := 0 },
       { id := 2, position := ⟨100, 130⟩, velocity := ⟨0, 0⟩
         acceleration := ⟨0, 0⟩, net_force := ⟨0, 0⟩, state := S0, mass := 1
         sigma := 15, epsilon := 2, kinetic_energy := 0, potential_energy := 0 }] := by
  norm_num [posStepP, resetFP, engC9, droneC9, pC9a, pC9b, defaultParams,
    TIME_STEP, S0_EPSILON, DRONE_MASS, DRONE_SIGMA, DRONE_EPSILON, Vec.scale,
    Vec.add_def, Particle.mk.injEq, Vec.mk.injEq]

theorem engC9_psDrone :
    (tickStages defaultParams ratSqrt engC9.particles).psDrone =
      [{ id := 0, position := ⟨100, 280⟩, velocity := ⟨0, 0⟩
         acceleration := ⟨0, 0⟩, net_force := ⟨0, -733294646602859/157286400000000000000⟩
         state := S0, mass := 1, sigma := 30, epsilon := 2
         kinetic_energy := 0, potential_energy := 0 },
       { id := 1, position := ⟨100, 100⟩, velocity := ⟨0, 0⟩
         acceleration := ⟨0, 0⟩, net_force := ⟨0, 131071/128849018880⟩
         state := S0, mass := 1, sigma := 15, epsilon := 2
         kinetic_energy := 0, potential_energy := -262143/8589934592 },
       { id := 2, position := ⟨100, 130⟩, velocity := ⟨0, 0⟩
         acceleration := ⟨0, 0⟩, net_force := ⟨0, 23327468559/6400000000000000⟩
         state := S0, mass := 1, sigma := 15, epsilon := 2
         kinetic_energy := 0, potential_energy := -46655468559/512000000000000 }] := by
  have hs1 : ratSqrt 32400 = 180 := ratSqrt_eval 32400 180 (by norm_num) (by norm_num)
  have hs2 : ratSqrt 22500 = 150 := ratSqrt_eval 22500 150 (by norm_num) (by norm_num)
  have hs4 : ratSqrt 4 = 2 := ratSqrt_eval 4 2 (by norm_num) (by norm_num)
  have h : (tickStages defaultParams ratSqrt engC9.particles).psDrone =
      dpPass ratSqrt ((engC9.particles.map (posStepP defaultParams)).map resetFP) := by
    simp only [tickStages]
  rw [h, engC9_reset]
  norm_num [dpPass, dpBody, addFP, subNF, getP, modAt, List.range_succ,
    Vec.mag, Vec.scale, Vec.divs, Vec.add_def, Vec.sub_def, Vec.normalize,
    MIN_INTERACTION_DISTANCE, hs1, hs2, hs4, Particle.mk.injEq, Vec.mk.injEq]

theorem engC9_pair :
    ppPass CELL_SIZE ratSqrt
      (buildGrid CELL_SIZE ((engC9.particles.map (posStepP defaultParams)).map resetFP))
      ((tickStages defaultParams ratSqrt engC9.particles).psDrone) =
    ([{ id := 0, position := ⟨100, 280⟩, velocity := ⟨0, 0⟩
        acceleration := ⟨0, 0⟩, net_force := ⟨0, -733294646602859/157286400000000000000⟩
        state := S0, mass := 1, sigma := 30, epsilon := 2
        kinetic_energy := 0, potential_energy := 0 },
      { id := 1, position := ⟨100, 100⟩, velocity := ⟨0, 0⟩
        acceleration := ⟨0, 0⟩, net_force := ⟨0, 3120693247/128849018880⟩
        state := S0, mass := 1, sigma := 15, epsilon := 2
        kinetic_energy := 0, potential_energy := -528744447/8589934592 },
      { id := 2, position := ⟨100, 130⟩, velocity := ⟨0, 0⟩
        acceleration := ⟨0, 0⟩, net_force := ⟨0, -154976672531441/6400000000000000⟩
        state := S0, mass := 1, sigma := 15, epsilon := 2
        kinetic_energy := 0, potential_energy := -31546655468559/512000000000000 }],
     (30 : ℚ)) := by
  have hs900 : ratSqrt 900 = 30 := ratSqrt_eval 900 30 (by norm_num) (by norm_num)
  have hs4 : ratSqrt 4 = 2 := ratSqrt_eval 4 2 (by norm_num) (by norm_num)
  rw [engC9_psDrone, engC9_reset]
  norm_num [ppPass, ppOuter, ppBody, addFP, subFP, getP, modAt, List.range_succ,
    buildGrid, gridInsert, gridNeighbors, emptyCells, cellCoords, truncQ,
    Vec.mag, Vec.scale, Vec.divs, Vec.add_def, Vec.sub_def, Vec.normalize,
    CELL_SIZE, MIN_INTERACTION_DISTANCE, hs900, hs4, Particle.mk.injEq,
    Vec.mk.injEq, Prod.mk.injEq, -Prod.mk_zero_zero, -Prod.mk_one_one]

/-- C9 (counterexample): on a concrete three-particle state the emitted
order metric is `15` — the average of the unsquared nearest evaluated
neighbor distances `(30 + 0) / 2` — while the claim's average of squared
distances is `(900 + 0) / 2 = 450`. -/
theorem order_metric_not_squared_counterexample :
    (runTick defaultParams ratSqrt engC9).2.order = 15 ∧
    orderSpecSquared CELL_SIZE ratSqrt
      (tickStages defaultParams ratSqrt engC9.particles).grid
      (tickStages defaultParams ratSqrt engC9.particles).psDrone = 450 ∧
    (15 : ℚ) ≠ 450 := by
  have hs900 : ratSqrt 900 = 30 := ratSqrt_eval 900 30 (by norm_num) (by norm_num)
  have hgrid : (tickStages defaultParams ratSqrt engC9.particles).grid =
      buildGrid CELL_SIZE ((engC9.particles.map (posStepP defaultParams)).map resetFP) := by
    simp only [tickStages]
  have hlen : (tickStages defaultParams ratSqrt engC9.particles).psBound.length = 3 := by
    have h1 : (tickStages defaultParams ratSqrt engC9.particles).psBound.length =
        (tickStages defaultParams ratSqrt engC9.particles).psDrone.length := by
      simp only [tickStages, List.length_map]
      exact (ppPass_eqCore _ _ _ _).1
    rw [h1, engC9_psDrone]
    rfl
  have htot : (tickStages defaultParams ratSqrt engC9.particles).total_nn_dist = 30 := by
    have h1 : (tickStages defaultParams ratSqrt engC9.particles).total_nn_dist =
        (ppPass CELL_SIZE ratSqrt
          (buildGrid CELL_SIZE ((engC9.particles.map (posStepP defaultParams)).map resetFP))
          ((tickStages defaultParams ratSqrt engC9.particles).psDrone)).2 := by
      simp only [tickStages]
    rw [h1, engC9_pair]
  have horder : (runTick defaultParams ratSqrt engC9).2.order =
      (if 0 < (tickStages defaultParams ratSqrt engC9.particles).psBound.length - 1 then
        (tickStages defaultParams ratSqrt engC9.particles).total_nn_dist /
          (((tickStages defaultParams ratSqrt engC9.particles).psBound.length - 1 : ℕ) : ℚ)
      else 0) := rfl
  refine ⟨?_, ?_, by norm_num⟩
  · rw [horder, htot, hlen]
    norm_num
  · rw [hgrid, engC9_psDrone, engC9_reset]
    norm_num [orderSpecSquared, nnMinSq, nnStep, getP, List.range_succ,
      buildGrid, gridInsert, gridNeighbors, emptyCells, cellCoords, truncQ,
      Vec.mag, Vec.sub_def, CELL_SIZE, hs900, Prod.mk.injEq, -Prod.mk_zero_zero,
      -Prod.mk_one_one]
